import Mathlib

/-!
Verification of the zen struct-to-zod-schema converter (`zod.go`).

The Go source is shallowly embedded: Go strings become Lean `String`s
(manipulated through explicit re-implementations of the `strings` stdlib
functions the source uses), `reflect.Type` becomes the inductive `Ty`
together with a field environment `Env` that plays the role of
`reflect.Type.Field`, the mutable `*Converter` receiver becomes explicit
state passing, and `panic` becomes the `Except Err` error monad.  The
walker's recursion (which in Go terminates through the cycle check, not
structurally) is fuel-indexed; `Err.fuel` never occurs when enough fuel is
supplied.
-/

set_option maxRecDepth 100000

deriving instance DecidableEq for Except

namespace Zen

/-! ## Go `strings` primitives, re-implemented over `List Char` -/

/-- `listIsPfxOf p s` decides whether `p` is a prefix of `s` (strings.HasPrefix). -/
def listIsPfxOf : List Char → List Char → Bool
  | [], _ => true
  | _ :: _, [] => false
  | a :: as, b :: bs => a == b && listIsPfxOf as bs

/-- strings.HasPrefix. -/
def goHasPfx (s p : String) : Bool := listIsPfxOf p.data s.data

/-- strings.Contains: does `s` contain `sub` as a substring. -/
def listContainsSub (sub : List Char) : List Char → Bool
  | [] => listIsPfxOf sub []
  | a :: t => listIsPfxOf sub (a :: t) || listContainsSub sub t

/-- strings.Contains. -/
def goContains (s sub : String) : Bool := listContainsSub sub.data s.data

/-- strings.TrimPrefix. -/
def goTrimPfx (s p : String) : String :=
  if listIsPfxOf p.data s.data then ⟨s.data.drop p.data.length⟩ else s

/-- Split at the first occurrence of (non-empty) `sep`: the pieces before and
after it, or `none` when `sep` does not occur. -/
def listSplitFirst (sep : List Char) : List Char → Option (List Char × List Char)
  | [] => if sep.isEmpty then some ([], []) else none
  | a :: t =>
    if listIsPfxOf sep (a :: t) then some ([], (a :: t).drop sep.length)
    else match listSplitFirst sep t with
      | some (pre, post) => some (a :: pre, post)
      | none => none

/-- `strings.Split(s, sep)[0]` / `strings.SplitN(s, sep, 2)[0]`: the part of
`s` before the first occurrence of `sep`, or all of `s`. -/
def goSplitFirstBefore (s sep : String) : String :=
  match listSplitFirst sep.data s.data with
  | some (pre, _) => ⟨pre⟩
  | none => s

/-- `strings.SplitN(s, sep, 2)[1]`: the part of `s` after the first occurrence
of `sep`.  When `sep` does not occur Go's index expression panics (index out
of range); that situation is unreachable in the runs below and is modelled as
the empty string. -/
def goSplitFirstAfter (s sep : String) : String :=
  match listSplitFirst sep.data s.data with
  | some (_, post) => ⟨post⟩
  | none => ""

/-- Split a character list on every occurrence of one character
(`strings.Split` with a one-character separator; the only full splits in the
source are on `","`). -/
def listSplitOnChar (c : Char) : List Char → List (List Char)
  | [] => [[]]
  | a :: rest =>
    if a == c then [] :: listSplitOnChar c rest
    else match listSplitOnChar c rest with
      | [] => [[a]]
      | h :: t => (a :: h) :: t

/-- `strings.Split(s, ",")`. -/
def goSplitComma (s : String) : List String :=
  (listSplitOnChar ',' s.data).map (fun l => ⟨l⟩)

/-- `strings.Join(l, sep)`. -/
def goJoin (sep : String) : List String → String
  | [] => ""
  | [a] => a
  | a :: b :: rest => a ++ sep ++ goJoin sep (b :: rest)

/-- Concatenation of a list of strings (used for appending collected
refinements, mirroring the Go loops `for _, refine := range refines`). -/
def goConcat : List String → String
  | [] => ""
  | a :: rest => a ++ goConcat rest

/-- The whitespace test of strings.TrimSpace (the tags in this development are
ASCII). -/
def isSpaceChar (c : Char) : Bool := c == ' ' || c == '\t' || c == '\n' || c == '\r'

/-- strings.TrimSpace. -/
def goTrimSpace (s : String) : String :=
  ⟨((s.data.dropWhile isSpaceChar).reverse.dropWhile isSpaceChar).reverse⟩

/-- `strings.Index(s, e)` for a one-character needle: byte index of the first
occurrence, `-1` when absent (the tags below are ASCII, so byte index equals
character index). -/
def listIdxOfChar (c : Char) : List Char → Int
  | [] => -1
  | a :: t =>
    if a == c then 0
    else
      let r := listIdxOfChar c t
      if r == -1 then -1 else r + 1

/-- `strings.Index(part, "=")`. -/
def goIndexEqSign (s : String) : Int := listIdxOfChar '=' s.data

/-- strings.Fields: whitespace-separated tokens, empties dropped. -/
def goFields (s : String) : List String :=
  ((listSplitOnChar ' ' s.data).filter (fun l => !l.isEmpty)).map (fun l => ⟨l⟩)

/-- Digit accumulation for strconv.Atoi. -/
def digitsToNatAux : List Char → Nat → Option Nat
  | [], acc => some acc
  | c :: t, acc =>
    if c.isDigit then digitsToNatAux t (acc * 10 + (c.toNat - '0'.toNat)) else none

/-- All-digit parse, requiring at least one digit. -/
def digitsToNat : List Char → Option Nat
  | [] => none
  | l => digitsToNatAux l 0

/-- strconv.Atoi (overflow ignored: all arguments in this development are
small). `none` models the non-nil error. -/
def goAtoi (s : String) : Option Int :=
  match s.data with
  | [] => none
  | '+' :: rest => (digitsToNat rest).map Int.ofNat
  | '-' :: rest => (digitsToNat rest).map (fun n => -(n : Int))
  | l => (digitsToNat l).map Int.ofNat

/-- `fmt.Sprintf("%d", i)` for a Go int. -/
def goItoa : Int → String
  | .ofNat n => Nat.repr n
  | .negSucc n => "-" ++ Nat.repr (n + 1)

end Zen

namespace Zen

/-! ## Data model

`Ty` mirrors `reflect.Type` as used by the source: the scalar kinds the
source distinguishes, named struct types (fields resolved through an `Env`,
playing the role of `reflect.Type.Field`), inline anonymous structs, and the
composite kinds.  `Field` mirrors `reflect.StructField` restricted to what
the source reads: the declared name, the values of the `json` and `validate`
struct tags, the `Anonymous` flag and the field type. -/

/-- The `reflect.Kind`s the source distinguishes.  All integer / unsigned /
float / complex kinds map to `"number"` in `typeMapping` and are collapsed
into `int` / `float`; `chan` stands for the kinds `typeMapping` misses. -/
inductive Kind where
  | bool | int | float | str | iface | structK | ptr | slice | array | map | chan
deriving DecidableEq, Repr

mutual
inductive Ty : Type where
  | scalar : Kind → Ty
  | structT : (pkg : String) → (name : String) → Ty
  | inlineT : (fields : List Field) → Ty
  | ptrT : Ty → Ty
  | sliceT : Ty → Ty
  | arrayT : (len : Nat) → Ty → Ty
  | mapT : (key : Ty) → (value : Ty) → Ty

inductive Field : Type where
  | mk : (name : String) → (jsonTag : String) → (validateTag : String) →
      (anonymous : Bool) → (ty : Ty) → Field
end

def Field.name : Field → String | .mk n _ _ _ _ => n
def Field.jsonTag : Field → String | .mk _ j _ _ _ => j
def Field.validateTag : Field → String | .mk _ _ v _ _ => v
def Field.anonymous : Field → Bool | .mk _ _ _ a _ => a
def Field.ty : Field → Ty | .mk _ _ _ _ t => t

/-- `reflect.Type.Kind()`. -/
def Ty.kind : Ty → Kind
  | .scalar k => k
  | .structT _ _ => .structK
  | .inlineT _ => .structK
  | .ptrT _ => .ptr
  | .sliceT _ => .slice
  | .arrayT _ _ => .array
  | .mapT _ _ => .map

/-- `reflect.Type.Name()`: the declared name of a named struct (possibly with
generic arguments, e.g. `"GenericPair[string,int]"`); empty for inline
structs, interfaces and the unnamed composite kinds; the usual spelling for
the scalar kinds. -/
def Ty.tyName : Ty → String
  | .scalar .bool => "bool"
  | .scalar .int => "int"
  | .scalar .float => "float64"
  | .scalar .str => "string"
  | .scalar _ => ""
  | .structT _ n => n
  | _ => ""

/-- `reflect.Type.PkgPath()`. -/
def Ty.pkgPath : Ty → String
  | .structT pkg _ => pkg
  | _ => ""

/-- `reflect.Type.Elem()` (pointer / slice / array element, map value). -/
def Ty.elemTy : Ty → Ty
  | .ptrT inner => inner
  | .sliceT inner => inner
  | .arrayT _ inner => inner
  | .mapT _ v => v
  | t => t

/-- `reflect.Type.Key()` of a map type. -/
def Ty.keyTy : Ty → Ty
  | .mapT k _ => k
  | t => t

/-- `reflect.Type.Len()` of an array type. -/
def Ty.arrLen : Ty → Nat
  | .arrayT n _ => n
  | _ => 0

/-- The field environment: for each declared struct name its field list, in
declaration order (the data `reflect.Type.NumField/Field` supplies). -/
def Env : Type := List (String × List Field)

/-- The field list of a struct type (`input.Field(i)` enumeration).  A named
struct absent from the environment yields `[]`; reflection cannot produce
that situation and no run below does. -/
def fieldsOf (env : Env) : Ty → List Field
  | .structT _ n => ((env : List (String × List Field)).lookup n).getD []
  | .inlineT fs => fs
  | _ => []

/-- `fmt.Sprint` of a `reflect.Kind` (for the panic messages). -/
def kindStr : Kind → String
  | .bool => "bool" | .int => "int" | .float => "float64" | .str => "string"
  | .iface => "interface" | .structK => "struct" | .ptr => "ptr"
  | .slice => "slice" | .array => "array" | .map => "map" | .chan => "chan"

/-- The `typeMapping` table (`map[reflect.Kind]string`): all numeric kinds map
to `"number"`. -/
def typeMapping : Kind → Option String
  | .bool => some "boolean"
  | .int => some "number"
  | .float => some "number"
  | .str => some "string"
  | .iface => some "any"
  | _ => none

/-- A Go panic (carrying the panic message) or fuel exhaustion of the
embedding; the latter never occurs with enough fuel. -/
inductive Err where
  | panic : String → Err
  | fuel : Err
deriving DecidableEq, Repr

/-- The registry value type `entry`. -/
structure entry where
  order : Nat
  data : String
deriving DecidableEq, Repr

/-- A stack frame `meta`. -/
structure meta where
  name : String
  selfRef : Bool
deriving DecidableEq, Repr

/-- Custom type / tag handlers.  In Go a `CustomFn` additionally receives the
`*Converter` (so it may recurse into the walker); no theorem below registers
a handler, so they are modelled as pure functions of the remaining
arguments. -/
def CustomFn : Type := Ty → String → Nat → String

/-- The converter state.  `outputs` (a Go `map[string]entry`) is an
association list in insertion order; `stack` grows at the end (the Go
`append`), so the top frame is the last element. -/
structure Converter where
  pfx : String
  customTypes : List (String × CustomFn)
  customTags : List (String × CustomFn)
  ignoreTags : List String
  structs : Nat
  outputs : List (String × entry)
  stack : List meta

/-- `NewConverterWithOpts()` with no options. -/
def newConverter : Converter :=
  { pfx := "", customTypes := [], customTags := [], ignoreTags := [],
    structs := 0, outputs := [], stack := [] }

end Zen

namespace Zen

/-! ## Pure helpers of the converter -/

/-- `schemaName(prefix, name)`. -/
def schemaName (pfx name : String) : String := pfx ++ name ++ "Schema"

/-- `fieldName(f)`: first comma-separated component of the `json` tag when it
is non-empty, else the declared field name. -/
def fieldName (f : Field) : String :=
  if f.jsonTag != "" then
    match goSplitComma f.jsonTag with
    | a0 :: _ => if a0.length > 0 then a0 else f.name
    | [] => f.name
  else f.name

/-- Capitalization of a generic type argument: `strings.ToTitle(arg[:1]) + arg[1:]`
(Go panics on an empty argument; declared names never produce one). -/
def capitalizeFirst : List Char → String
  | [] => ""
  | a :: rest => ⟨Char.toUpper a :: rest⟩

/-- `getTypeNameWithGenerics`: flatten generic type arguments into the name,
e.g. `"GenericPair[int,bool]"` becomes `"GenericPairIntBool"`. -/
def getTypeNameWithGenerics (name : String) : String :=
  match listSplitFirst ['['] name.data with
  | none => name
  | some (base, rest) =>
    let args := listSplitOnChar ',' rest.dropLast
    String.mk base ++ goConcat (args.map capitalizeFirst)

/-- `typeName(t)`: the registry identity of a type. -/
def typeName : Ty → String
  | .structT _ n => getTypeNameWithGenerics n
  | .inlineT _ => getTypeNameWithGenerics ""
  | .ptrT inner => typeName inner
  | .sliceT inner => typeName inner
  | .mapT _ v => typeName v
  | _ => "UNKNOWN"

/-- `isGeneric(t)`. -/
def isGeneric (t : Ty) : Bool := goContains t.tyName "["

/-- Drop up to and including the first occurrence of a character. -/
def dropThroughFirst (c : Char) : List Char → List Char
  | [] => []
  | a :: t => if a == c then t else dropThroughFirst c t

/-- Submatch 1 of the greedy Go regex `(.+)\[(.+)]` used by `getFullName`:
everything before the last `[` of the name. -/
def stripGenericArgs (name : String) : String :=
  ⟨(dropThroughFirst '[' name.data.reverse).reverse⟩

/-- `getFullName(t)`: package path and name, generic arguments stripped. -/
def getFullName (t : Ty) : String :=
  let typename := if isGeneric t then stripGenericArgs t.tyName else t.tyName
  t.pkgPath ++ "." ++ typename

/-- `indentation(level)`. -/
def indentation (level : Nat) : String := ⟨List.replicate (level * 2) ' '⟩

/-- `getValidateCurrent`: the current-zone part of a validate tag (everything
before the first `dive`). -/
def getValidateCurrent (validate : String) : String :=
  if goHasPfx validate "dive" then ""
  else if goContains validate ",dive" then goSplitFirstBefore validate ",dive"
  else validate

/-- `getValidateAfterDive`: everything after the first `dive` token. -/
def getValidateAfterDive (validate : String) : String :=
  if validate != "" then afterDive (goSplitComma validate)
  else ""
where
  afterDive : List String → String
    | [] => ""
    | p :: rest => if goTrimSpace p == "dive" then goJoin "," rest else afterDive rest

/-- `getValidateKeys`: the map-key zone, strictly between `keys` and
`endkeys`. -/
def getValidateKeys (validate : String) : String :=
  if goContains validate "keys" then
    let removedSuffix := goSplitFirstBefore validate ",endkeys"
    match listSplitFirst "keys,".data removedSuffix.data with
    | some (_, post) => ⟨post⟩
    | none => ""
  else ""

/-- `getValidateValues`: the map-value zone (after `endkeys`, or after `dive`
when no key zone is present). -/
def getValidateValues (validate : String) : String :=
  if goContains validate "dive,keys" then
    let removedPfx := goSplitFirstAfter validate ",endkeys"
    let vv := if goContains removedPfx ",dive"
      then goSplitFirstBefore removedPfx ",dive" else removedPfx
    goTrimPfx vv ","
  else if goContains validate "dive" then
    let removedPfx := goSplitFirstAfter validate "dive,"
    if goContains removedPfx ",dive"
      then goSplitFirstBefore removedPfx ",dive" else removedPfx
  else ""

/-- `checkIsIgnored`. -/
def checkIsIgnored (c : Converter) (part : String) : Bool :=
  c.ignoreTags.contains part

/-- `isInterface(field)`: whether the first non-pointer type is an
interface. -/
def isInterfaceTy : Ty → Bool
  | .ptrT inner => isInterfaceTy inner
  | t => t.kind == .iface

/-- `isNullable(field)`. -/
def isNullable (f : Field) : Bool :=
  let validateCurrent := getValidateCurrent f.validateTag
  if isInterfaceTy f.ty || goContains validateCurrent "required" then false
  else if goContains validateCurrent "=" && !goContains validateCurrent "omitempty" then false
  else
    let jsonTag := f.jsonTag
    if f.ty.kind == .ptr then
      if goContains jsonTag "omitempty" || goContains jsonTag "omitzero" then
        let k := f.ty.elemTy.kind
        k == .ptr || k == .slice || k == .map
      else true
    else if f.ty.kind == .slice || f.ty.kind == .map then
      !goContains jsonTag "omitempty" && !goContains jsonTag "omitzero"
    else false

/-- `isOptional(field)`. -/
def isOptional (f : Field) : Bool :=
  let validateCurrent := getValidateCurrent f.validateTag
  if f.ty.kind == .structK || isInterfaceTy f.ty
      || goContains validateCurrent "required" then false
  else if goContains validateCurrent "=" && !goContains validateCurrent "omitempty" then false
  else goContains f.jsonTag "omitempty" || goContains f.jsonTag "omitzero"

/-- The accumulation loop of `detectCycle`: writes each stack name, stopping
(found) at the first frame whose name equals the sought identity, joining
with `" -> "`. -/
def detectCycleAux (name : String) : List meta → String → Option String
  | [], _ => none
  | m :: rest, acc =>
    let acc := acc ++ m.name
    if m.name == name then some acc
    else detectCycleAux name rest (acc ++ " -> ")

/-- `detectCycle(name, stack)`: panics when `name` occurs anywhere in the
stack, reporting the accumulated path. -/
def detectCycle (name : String) (stack : List meta) : Except Err Unit :=
  match detectCycleAux name stack "" with
  | some cycle => .error (.panic ("circular dependency detected: " ++ cycle))
  | none => .ok ()

/-- Go map assignment `m[k] = v` on the association-list model: replace the
binding when the key is present, append otherwise. -/
def mapSet (l : List (String × entry)) (name : String) (e : entry) :
    List (String × entry) :=
  match l with
  | [] => [(name, e)]
  | (k, v) :: rest =>
    if k == name then (k, e) :: rest
    else (k, v) :: mapSet rest name e

/-- `addSchema(name, data)`: write-once registration under the next insertion
index. -/
def addSchema (c : Converter) (name data : String) : Converter :=
  if (c.outputs.lookup name).isSome then c
  else { c with outputs := mapSet c.outputs name ⟨c.structs, data⟩,
                structs := c.structs + 1 }

/-- Insert into a list sorted by `entry.order`. -/
def insertEntrySorted (e : entry) : List entry → List entry
  | [] => [e]
  | a :: rest => if e.order < a.order then e :: a :: rest else a :: insertEntrySorted e rest

/-- `sort.Sort(byOrder(...))`.  The Go map iteration order is arbitrary, but
the insertion indices are pairwise distinct, so the sorted sequence is
uniquely determined and insertion sort computes it. -/
def sortByOrder : List entry → List entry
  | [] => []
  | a :: rest => insertEntrySorted a (sortByOrder rest)

/-- `Export()`: all registered entries sorted by insertion index, each
followed by a blank separator line. -/
def Export (c : Converter) : String :=
  goConcat ((sortByOrder (c.outputs.map (fun p => p.2))).map (fun ent => ent.data ++ "\n\n"))

/-- `handleCustomType` (without the indent-threading the pure handlers
ignore): the caller-supplied override for a fully-qualified type name. -/
def handleCustomType (c : Converter) (t : Ty) (validate : String) (indent : Nat) :
    Option String :=
  match c.customTypes.lookup (getFullName t) with
  | some fn => some (fn t validate indent)
  | none => none

end Zen

namespace Zen

/-! ## Validation tag compiler -/

/-- Modelled from the spec: the format-validator pattern constants
(`alphaRegexString` and friends) are a fixed data asset defined outside the
core source; their exact text is declared out of scope, so each is embedded
as an opaque placeholder literal.  No claim depends on their values. -/
def uRLEncodedRegexString : String := "RE_urlencoded"
def alphaRegexString : String := "RE_alpha"
def alphaNumericRegexString : String := "RE_alphanum"
def alphaUnicodeNumericRegexString : String := "RE_alphanumunicode"
def alphaUnicodeRegexString : String := "RE_alphaunicode"
def aSCIIRegexString : String := "RE_ascii"
def numberRegexString : String := "RE_number"
def numericRegexString : String := "RE_numeric"
def base64RegexString : String := "RE_base64"
def mongodbRegexString : String := "RE_mongodb"
def hexadecimalRegexString : String := "RE_hexadecimal"
def jWTRegexString : String := "RE_jwt"
def latitudeRegexString : String := "RE_latitude"
def longitudeRegexString : String := "RE_longitude"
def md4RegexString : String := "RE_md4"
def md5RegexString : String := "RE_md5"
def sha256RegexString : String := "RE_sha256"
def sha384RegexString : String := "RE_sha384"
def sha512RegexString : String := "RE_sha512"

/-- Modelled from the spec: `splitParamsRegex.FindAllString(v, -1)` with the
quote-aware pattern (defined outside the core source) returning maximal
single-quoted segments or whitespace-free tokens, in order. -/
theorem lengthDropWhileLe (p : Char → Bool) (l : List Char) :
    (l.dropWhile p).length ≤ l.length := by
  induction l with
  | nil => simp
  | cons a t ih =>
    by_cases h : p a
    · simp only [List.dropWhile, h, List.length_cons]
      exact Nat.le_succ_of_le ih
    · simp only [List.dropWhile, h]
      simp

def splitParamsAux : List Char → List Char → List (List Char)
  | [], acc => if acc.isEmpty then [] else [acc.reverse]
  | ' ' :: rest, acc =>
    if acc.isEmpty then splitParamsAux rest [] else acc.reverse :: splitParamsAux rest []
  | '\'' :: rest, acc =>
    if acc.isEmpty then
      match h : rest.dropWhile (fun ch => ch != '\'') with
      | '\'' :: tail =>
        ('\'' :: rest.takeWhile (fun ch => ch != '\'') ++ ['\'']) :: splitParamsAux tail []
      | _ => splitParamsAux rest ['\'']
    else splitParamsAux rest ('\'' :: acc)
  | a :: rest, acc => splitParamsAux rest (a :: acc)
termination_by l _ => l.length
decreasing_by
  all_goals simp_all
  have hd : (rest.dropWhile (fun ch => ch != '\'')).length ≤ rest.length :=
    lengthDropWhileLe _ rest
  rw [h] at hd
  simp at hd
  omega

/-- The token list of a `oneof` argument string. -/
def splitParams (s : String) : List String :=
  (splitParamsAux s.data []).map (fun l => ⟨l⟩)

/-- `strings.Replace(v, "'", "", -1)`. -/
def removeApos (s : String) : String := ⟨s.data.filter (fun ch => ch != '\'')⟩

/-- Modelled from strconv.ParseFloat: acceptance of a decimal literal with
optional sign and at most one point (exponents and special forms the tags
never use are rejected).  Only the success/failure bit is consumed. -/
def goParseFloatOk (s : String) : Bool :=
  let body := match s.data with
    | '+' :: rest => rest
    | '-' :: rest => rest
    | l => l
  match listSplitFirst ['.'] body with
  | some (ip, fp) => !ip.isEmpty && !fp.isEmpty && ip.all Char.isDigit && fp.all Char.isDigit
  | none => !body.isEmpty && body.all Char.isDigit

/-- `preprocessValidationTagPart`: trims the token, rejects `=` at either
boundary, splits name/value, and consumes ignored and custom-tag tokens
(custom output beginning with `.refine` joins the refinements, otherwise the
appended suffix text).  Returns `(valName, valValue, done, refines,
validateStr)`. -/
def preprocessValidationTagPart (c : Converter) (part : String)
    (refines : List String) (validateStr : String) :
    Except Err (String × String × Bool × List String × String) :=
  let part := goTrimSpace part
  if part == "" then .ok ("", "", true, refines, validateStr)
  else
    let idx := goIndexEqSign part
    if idx == 0 || idx == (part.length : Int) - 1 then
      .error (.panic ("invalid validation: " ++ part))
    else
      let valName := if idx == -1 then part else ⟨part.data.take idx.toNat⟩
      let valValue := if idx == -1 then "" else ⟨part.data.drop (idx.toNat + 1)⟩
      if checkIsIgnored c valName then .ok ("", "", true, refines, validateStr)
      else
        match c.customTags.lookup valName with
        | some h =>
          let v := h (.scalar .str) valValue 0
          if goHasPfx v ".refine" then .ok ("", "", true, refines ++ [v], validateStr)
          else .ok ("", "", true, refines, validateStr ++ v)
        | none => .ok (valName, valValue, false, refines, validateStr)

end Zen

namespace Zen

/-- First element of a `oneof` number list that strconv.ParseFloat rejects. -/
def firstBadNumber : List String → Option String
  | [] => none
  | nv :: rest => if goParseFloatOk nv then firstBadNumber rest else some nv

/-- The token loop of `validateNumber`, threading (baseSchema, appendages,
refines, isTopLevel, hasBaseSchema); at the end the base schema, the chained
appendages and then every refinement are concatenated. -/
def validateNumberLoop (c : Converter) :
    List String → String → String → List String → Bool → Bool → Except Err (String × Bool)
  | [], base, app, refines, isTop, _hasBase => .ok (base ++ app ++ goConcat refines, isTop)
  | part :: rest, base, app, refines, isTop, hasBase =>
    match preprocessValidationTagPart c part refines app with
    | .error e => .error e
    | .ok (valName, valValue, done, refines1, app1) =>
      if done then validateNumberLoop c rest base app1 refines1 isTop hasBase
      else if valValue != "" then
        match valName with
        | "oneof" =>
          if hasBase then
            .error (.panic ("cannot combine \x27oneof\x27 with another top-level number validation: " ++ part))
          else
            let numValues := goFields valValue
            if numValues.length == 0 then
              .error (.panic ("invalid oneof validation for number: " ++ part ++ ". Requires values."))
            else
              match firstBadNumber numValues with
              | some nv =>
                .error (.panic ("invalid number value \x27" ++ nv ++ "\x27 in oneof for number: " ++ part))
              | none =>
                let literalStrings := numValues.map (fun nv => "z.literal(" ++ nv ++ ")")
                validateNumberLoop c rest
                  (base ++ "z.union([" ++ goJoin ", " literalStrings ++ "])")
                  app1 refines1 true true
        | "gt" => validateNumberLoop c rest base (app1 ++ ".gt(" ++ valValue ++ ")") refines1 isTop hasBase
        | "gte" => validateNumberLoop c rest base (app1 ++ ".gte(" ++ valValue ++ ")") refines1 isTop hasBase
        | "min" => validateNumberLoop c rest base (app1 ++ ".gte(" ++ valValue ++ ")") refines1 isTop hasBase
        | "lt" => validateNumberLoop c rest base (app1 ++ ".lt(" ++ valValue ++ ")") refines1 isTop hasBase
        | "lte" => validateNumberLoop c rest base (app1 ++ ".lte(" ++ valValue ++ ")") refines1 isTop hasBase
        | "max" => validateNumberLoop c rest base (app1 ++ ".lte(" ++ valValue ++ ")") refines1 isTop hasBase
        | "eq" => validateNumberLoop c rest base app1
            (refines1 ++ [".refine((val) => val === " ++ valValue ++ ", \x7b message: \"Number must be equal to " ++ valValue ++ "\" \x7d)"])
            isTop hasBase
        | "len" => validateNumberLoop c rest base app1
            (refines1 ++ [".refine((val) => val === " ++ valValue ++ ", \x7b message: \"Number must be equal to " ++ valValue ++ "\" \x7d)"])
            isTop hasBase
        | "ne" => validateNumberLoop c rest base app1
            (refines1 ++ [".refine((val) => val !== " ++ valValue ++ ", \x7b message: \"Number must not be equal to " ++ valValue ++ "\" \x7d)"])
            isTop hasBase
        | _ => .error (.panic ("unknown number validation with value: " ++ part))
      else
        match valName with
        | "omitempty" => validateNumberLoop c rest base app1 refines1 isTop hasBase
        | "required" => validateNumberLoop c rest base app1
            (refines1 ++ [".refine((val) => val !== 0, \x7b message: \"Number is required and cannot be 0\" \x7d)"])
            isTop hasBase
        | _ => .error (.panic ("unknown number validation without value: " ++ part))

/-- `validateNumber`: the Zod validation text for a number host and whether it
is a top-level schema. -/
def validateNumber (c : Converter) (validate : String) : Except Err (String × Bool) :=
  validateNumberLoop c (goSplitComma validate) "" "" [] false false

/-- The token loop of `validateString` (same state discipline as
`validateNumberLoop`).  The `gt`/`lt` panic messages drop the trailing
strconv error text Go interpolates. -/
def validateStringLoop (c : Converter) :
    List String → String → String → List String → Bool → Bool → Except Err (String × Bool)
  | [], base, app, refines, isTop, _hasBase => .ok (base ++ app ++ goConcat refines, isTop)
  | part :: rest, base, app, refines, isTop, hasBase =>
    match preprocessValidationTagPart c part refines app with
    | .error e => .error e
    | .ok (valName, valValue, done, refines1, app1) =>
      if done then validateStringLoop c rest base app1 refines1 isTop hasBase
      else if valValue != "" then
        match valName with
        | "oneof" =>
          if hasBase then
            .error (.panic ("cannot combine \x27oneof\x27 with other top-level string validation: " ++ part))
          else
            let vals := (splitParams valValue).map removeApos
            if vals.length == 0 then .error (.panic ("invalid oneof validation: " ++ part))
            else validateStringLoop c rest
              (base ++ "z.enum([\"" ++ goJoin "\", \"" vals ++ "\"] as const)")
              app1 refines1 true true
        | "len" => validateStringLoop c rest base (app1 ++ ".length(" ++ valValue ++ ")") refines1 isTop hasBase
        | "min" => validateStringLoop c rest base (app1 ++ ".min(" ++ valValue ++ ")") refines1 isTop hasBase
        | "max" => validateStringLoop c rest base (app1 ++ ".max(" ++ valValue ++ ")") refines1 isTop hasBase
        | "gt" =>
          match goAtoi valValue with
          | none => .error (.panic ("invalid gt value for string length: " ++ valValue))
          | some val => validateStringLoop c rest base (app1 ++ ".min(" ++ goItoa (val + 1) ++ ")") refines1 isTop hasBase
        | "gte" => validateStringLoop c rest base (app1 ++ ".min(" ++ valValue ++ ")") refines1 isTop hasBase
        | "lt" =>
          match goAtoi valValue with
          | none => .error (.panic ("invalid lt value for string length: " ++ valValue))
          | some val => validateStringLoop c rest base (app1 ++ ".max(" ++ goItoa (val - 1) ++ ")") refines1 isTop hasBase
        | "lte" => validateStringLoop c rest base (app1 ++ ".max(" ++ valValue ++ ")") refines1 isTop hasBase
        | "contains" => validateStringLoop c rest base (app1 ++ ".includes(\"" ++ valValue ++ "\")") refines1 isTop hasBase
        | "startswith" => validateStringLoop c rest base (app1 ++ ".startsWith(\"" ++ valValue ++ "\")") refines1 isTop hasBase
        | "endswith" => validateStringLoop c rest base (app1 ++ ".endsWith(\"" ++ valValue ++ "\")") refines1 isTop hasBase
        | "eq" => validateStringLoop c rest base app1
            (refines1 ++ [".refine((val) => val === \"" ++ valValue ++ "\", \x7b message: \"String must be equal to \x27" ++ valValue ++ "\x27\" \x7d)"])
            isTop hasBase
        | "ne" => validateStringLoop c rest base app1
            (refines1 ++ [".refine((val) => val !== \"" ++ valValue ++ "\", \x7b message: \"String must not be equal to \x27" ++ valValue ++ "\x27\" \x7d)"])
            isTop hasBase
        | _ => .error (.panic ("unknown string validation with value: " ++ part ++ " (valName: " ++ valName ++ ", valValue: " ++ valValue ++ ")"))
      else
        match valName with
        | "omitempty" => validateStringLoop c rest base app1 refines1 isTop hasBase
        | "required" => validateStringLoop c rest base (app1 ++ ".min(1)") refines1 isTop hasBase
        | "email" =>
          if hasBase then .error (.panic ("cannot combine \x27email\x27 with other top-level string validation: " ++ part))
          else validateStringLoop c rest (base ++ "z.email()") app1 refines1 true true
        | "url" =>
          if hasBase then .error (.panic ("cannot combine \x27url\x27 with other top-level string validation: " ++ part))
          else validateStringLoop c rest (base ++ "z.url()") app1 refines1 true true
        | "http_url" =>
          if hasBase then .error (.panic ("cannot combine \x27url\x27 with other top-level string validation: " ++ part))
          else validateStringLoop c rest (base ++ "z.url()") app1 refines1 true true
        | "ipv4" =>
          if hasBase then .error (.panic ("cannot combine \x27ipv4\x27 with other top-level string validation: " ++ part))
          else validateStringLoop c rest (base ++ "z.ipv4()") app1 refines1 true true
        | "ip4_addr" =>
          if hasBase then .error (.panic ("cannot combine \x27ipv4\x27 with other top-level string validation: " ++ part))
          else validateStringLoop c rest (base ++ "z.ipv4()") app1 refines1 true true
        | "ipv6" =>
          if hasBase then .error (.panic ("cannot combine \x27ipv6\x27 with other top-level string validation: " ++ part))
          else validateStringLoop c rest (base ++ "z.ipv6()") app1 refines1 true true
        | "ip6_addr" =>
          if hasBase then .error (.panic ("cannot combine \x27ipv6\x27 with other top-level string validation: " ++ part))
          else validateStringLoop c rest (base ++ "z.ipv6()") app1 refines1 true true
        | "ip" =>
          if hasBase then .error (.panic ("cannot combine \x27ip\x27 with other top-level string validation: " ++ part))
          else validateStringLoop c rest (base ++ "z.union([z.ipv4(), z.ipv6()])") app1 refines1 true true
        | "ip_addr" =>
          if hasBase then .error (.panic ("cannot combine \x27ip\x27 with other top-level string validation: " ++ part))
          else validateStringLoop c rest (base ++ "z.union([z.ipv4(), z.ipv6()])") app1 refines1 true true
        | "datetime" =>
          if hasBase then .error (.panic ("cannot combine \x27datetime\x27 with other top-level string validation: " ++ part))
          else validateStringLoop c rest (base ++ "z.iso.datetime()") app1 refines1 true true
        | "uuid" =>
          if hasBase then .error (.panic ("cannot combine \x27uuid\x27 with other top-level string validation: " ++ part))
          else validateStringLoop c rest (base ++ "z.uuid()") app1 refines1 true true
        | "uuid3" =>
          if hasBase then .error (.panic ("cannot combine \x27uuid\x27 with other top-level string validation: " ++ part))
          else validateStringLoop c rest (base ++ "z.uuid()") app1 refines1 true true
        | "uuid3_rfc4122" =>
          if hasBase then .error (.panic ("cannot combine \x27uuid\x27 with other top-level string validation: " ++ part))
          else validateStringLoop c rest (base ++ "z.uuid()") app1 refines1 true true
        | "uuid4" =>
          if hasBase then .error (.panic ("cannot combine \x27uuid\x27 with other top-level string validation: " ++ part))
          else validateStringLoop c rest (base ++ "z.uuid()") app1 refines1 true true
        | "uuid4_rfc4122" =>
          if hasBase then .error (.panic ("cannot combine \x27uuid\x27 with other top-level string validation: " ++ part))
          else validateStringLoop c rest (base ++ "z.uuid()") app1 refines1 true true
        | "uuid5" =>
          if hasBase then .error (.panic ("cannot combine \x27uuid\x27 with other top-level string validation: " ++ part))
          else validateStringLoop c rest (base ++ "z.uuid()") app1 refines1 true true
        | "uuid5_rfc4122" =>
          if hasBase then .error (.panic ("cannot combine \x27uuid\x27 with other top-level string validation: " ++ part))
          else validateStringLoop c rest (base ++ "z.uuid()") app1 refines1 true true
        | "uuid_rfc4122" =>
          if hasBase then .error (.panic ("cannot combine \x27uuid\x27 with other top-level string validation: " ++ part))
          else validateStringLoop c rest (base ++ "z.uuid()") app1 refines1 true true
        | "url_encoded" => validateStringLoop c rest base
            (app1 ++ ".regex(/" ++ uRLEncodedRegexString ++ "/, \x7b message: \"Invalid URL encoded string\" \x7d)") refines1 isTop hasBase
        | "alpha" => validateStringLoop c rest base
            (app1 ++ ".regex(/" ++ alphaRegexString ++ "/, \x7b message: \"Invalid alpha string\" \x7d)") refines1 isTop hasBase
        | "alphanum" => validateStringLoop c rest base
            (app1 ++ ".regex(/" ++ alphaNumericRegexString ++ "/, \x7b message: \"Invalid alphanumeric string\" \x7d)") refines1 isTop hasBase
        | "alphanumunicode" => validateStringLoop c rest base
            (app1 ++ ".regex(/" ++ alphaUnicodeNumericRegexString ++ "/, \x7b message: \"Invalid alphanumeric unicode string\" \x7d)") refines1 isTop hasBase
        | "alphaunicode" => validateStringLoop c rest base
            (app1 ++ ".regex(/" ++ alphaUnicodeRegexString ++ "/, \x7b message: \"Invalid alpha unicode string\" \x7d)") refines1 isTop hasBase
        | "ascii" => validateStringLoop c rest base
            (app1 ++ ".regex(/" ++ aSCIIRegexString ++ "/, \x7b message: \"Invalid ASCII string\" \x7d)") refines1 isTop hasBase
        | "boolean" => validateStringLoop c rest base
            (app1 ++ ".refine((val) => val === \x27true\x27 || val === \x27false\x27, \x7b message: \"String must be \x27true\x27 or \x27false\x27\" \x7d)") refines1 isTop hasBase
        | "lowercase" => validateStringLoop c rest base app1
            (refines1 ++ [".refine((val) => val === val.toLowerCase(), \x7b message: \"String must be lowercase\" \x7d)"]) isTop hasBase
        | "uppercase" => validateStringLoop c rest base app1
            (refines1 ++ [".refine((val) => val === val.toUpperCase(), \x7b message: \"String must be uppercase\" \x7d)"]) isTop hasBase
        | "number" => validateStringLoop c rest base
            (app1 ++ ".regex(/" ++ numberRegexString ++ "/, \x7b message: \"String must be a number\" \x7d)") refines1 isTop hasBase
        | "numeric" => validateStringLoop c rest base
            (app1 ++ ".regex(/" ++ numericRegexString ++ "/, \x7b message: \"String must be numeric\" \x7d)") refines1 isTop hasBase
        | "base64" => validateStringLoop c rest base
            (app1 ++ ".regex(/" ++ base64RegexString ++ "/, \x7b message: \"Invalid base64 string\" \x7d)") refines1 isTop hasBase
        | "mongodb" => validateStringLoop c rest base
            (app1 ++ ".regex(/" ++ mongodbRegexString ++ "/, \x7b message: \"Invalid MongoDB ID\" \x7d)") refines1 isTop hasBase
        | "hexadecimal" => validateStringLoop c rest base
            (app1 ++ ".regex(/" ++ hexadecimalRegexString ++ "/, \x7b message: \"Invalid hexadecimal string\" \x7d)") refines1 isTop hasBase
        | "json" => validateStringLoop c rest base app1
            (refines1 ++ [".refine((val) => \x7b try \x7b JSON.parse(val); return true; \x7d catch (e) \x7b return false; \x7d \x7d, \x7b message: \"String must be valid JSON\" \x7d)"]) isTop hasBase
        | "jwt" => validateStringLoop c rest base
            (app1 ++ ".regex(/" ++ jWTRegexString ++ "/, \x7b message: \"Invalid JWT token\" \x7d)") refines1 isTop hasBase
        | "latitude" => validateStringLoop c rest base
            (app1 ++ ".regex(/" ++ latitudeRegexString ++ "/, \x7b message: \"Invalid latitude string\" \x7d)") refines1 isTop hasBase
        | "longitude" => validateStringLoop c rest base
            (app1 ++ ".regex(/" ++ longitudeRegexString ++ "/, \x7b message: \"Invalid longitude string\" \x7d)") refines1 isTop hasBase
        | "md4" => validateStringLoop c rest base
            (app1 ++ ".regex(/" ++ md4RegexString ++ "/, \x7b message: \"Invalid MD4 hash\" \x7d)") refines1 isTop hasBase
        | "md5" => validateStringLoop c rest base
            (app1 ++ ".regex(/" ++ md5RegexString ++ "/, \x7b message: \"Invalid MD5 hash\" \x7d)") refines1 isTop hasBase
        | "sha256" => validateStringLoop c rest base
            (app1 ++ ".regex(/" ++ sha256RegexString ++ "/, \x7b message: \"Invalid SHA256 hash\" \x7d)") refines1 isTop hasBase
        | "sha384" => validateStringLoop c rest base
            (app1 ++ ".regex(/" ++ sha384RegexString ++ "/, \x7b message: \"Invalid SHA384 hash\" \x7d)") refines1 isTop hasBase
        | "sha512" => validateStringLoop c rest base
            (app1 ++ ".regex(/" ++ sha512RegexString ++ "/, \x7b message: \"Invalid SHA512 hash\" \x7d)") refines1 isTop hasBase
        | _ => .error (.panic ("unknown string validation without value: " ++ part ++ " (valName: " ++ valName ++ ")"))

/-- `validateString`: the Zod validation text for a string host and whether it
is a top-level schema. -/
def validateString (c : Converter) (validate : String) : Except Err (String × Bool) :=
  validateStringLoop c (goSplitComma validate) "" "" [] false false

/-- `convertKeyType`: the schema of a map key (string or coerced number
only). -/
def convertKeyType (c : Converter) (t : Ty) (validate : String) : Except Err String :=
  if t.tyName == "Time" then .ok "z.coerce.date()"
  else
    match typeMapping t.kind with
    | none => .error (.panic ("cannot handle key type: " ++ kindStr t.kind))
    | some zodType =>
      if zodType != "string" && zodType != "number" then
        .error (.panic ("cannot handle key type: " ++ kindStr t.kind))
      else if zodType == "string" then
        if validate != "" then
          match validateString c validate with
          | .error e => .error e
          | .ok (res, isTop) =>
            if isTop then .ok res
            else if res != "" then .ok ("z.string()" ++ res)
            else .ok "z.string()"
        else .ok "z.string()"
      else
        if validate != "" then
          match validateNumber c validate with
          | .error e => .error e
          | .ok (res, isTop) =>
            if isTop then .ok res
            else .ok ("z.coerce.number()" ++ res)
        else .ok "z.coerce.number()"

end Zen

namespace Zen

/-! ## Type graph walker -/

/-- Mark the top stack frame self-referential
(`c.stack[len(c.stack)-1].selfRef = true`). -/
def setLastSelfRefAux : List meta → List meta
  | [] => []
  | [m] => [⟨m.name, true⟩]
  | m :: rest => m :: setLastSelfRefAux rest

def setTopSelfRef (c : Converter) : Converter :=
  { c with stack := setLastSelfRefAux c.stack }

/-- The top stack frame (`c.stack[len(c.stack)-1]`; Go would panic on an
empty stack, which no run below reaches — the default frame has an empty
name, which never equals a declared struct name). -/
def topFrame (c : Converter) : meta := c.stack.getLastD ⟨"", false⟩

/-- The `required`-on-`Time` refinement literal of `ConvertType`. -/
def timeRequiredRefine : String :=
  ".refine((val) => val.getTime() !== new Date(\x270001-01-01T00:00:00Z\x27).getTime() && val.getTime() !== new Date(0).getTime(), \x27Invalid date\x27)"

/-- The validation-token loop of the struct arm of `ConvertType`: only
`required` (special-cased for `Time`) survives; anything else unhandled
panics. -/
def convertTypeStructParts (c : Converter) (name : String) :
    List String → String → List String → Except Err String
  | [], validateStr, refines => .ok (validateStr ++ goConcat refines)
  | part :: rest, validateStr, refines =>
    match preprocessValidationTagPart c part refines validateStr with
    | .error e => .error e
    | .ok (valName, _valValue, done, refines1, vs1) =>
      if done then convertTypeStructParts c name rest vs1 refines1
      else
        match valName with
        | "required" =>
          if name == "Time" then
            convertTypeStructParts c name rest vs1 (refines1 ++ [timeRequiredRefine])
          else convertTypeStructParts c name rest vs1 refines1
        | _ => .error (.panic ("unknown validation: " ++ part))

/-- The current-zone token loop of `convertSliceAndArray` (the `forParts`
loop): arrays reject every unconsumed token; slices compile the comparison
directives, `ne` to a refinement, and `dive` breaks the loop. -/
def sliceLoop (c : Converter) (isArray : Bool) :
    List String → String → List String → Except Err (String × List String)
  | [], vs, refines => .ok (vs, refines)
  | part :: rest, vs, refines =>
    match preprocessValidationTagPart c part refines vs with
    | .error e => .error e
    | .ok (valName, valValue, done, refines1, vs1) =>
      if done then sliceLoop c isArray rest vs1 refines1
      else if isArray then .error (.panic ("unknown validation: " ++ part))
      else if valValue != "" then
        match valName with
        | "min" => sliceLoop c isArray rest (vs1 ++ ".min(" ++ valValue ++ ")") refines1
        | "max" => sliceLoop c isArray rest (vs1 ++ ".max(" ++ valValue ++ ")") refines1
        | "len" => sliceLoop c isArray rest (vs1 ++ ".length(" ++ valValue ++ ")") refines1
        | "eq" => sliceLoop c isArray rest (vs1 ++ ".length(" ++ valValue ++ ")") refines1
        | "ne" => sliceLoop c isArray rest vs1
            (refines1 ++ [".refine((val) => val.length !== " ++ valValue ++ ")"])
        | "gt" =>
          match goAtoi valValue with
          | none => .error (.panic ("invalid gt value: " ++ valValue))
          | some val =>
            if val < 0 then .error (.panic ("invalid gt value: " ++ valValue))
            else sliceLoop c isArray rest (vs1 ++ ".min(" ++ goItoa (val + 1) ++ ")") refines1
        | "gte" => sliceLoop c isArray rest (vs1 ++ ".min(" ++ valValue ++ ")") refines1
        | "lt" =>
          match goAtoi valValue with
          | none => .error (.panic ("invalid lt value: " ++ valValue))
          | some val =>
            if val ≤ 0 then .error (.panic ("invalid lt value: " ++ valValue))
            else sliceLoop c isArray rest (vs1 ++ ".max(" ++ goItoa (val - 1) ++ ")") refines1
        | "lte" => sliceLoop c isArray rest (vs1 ++ ".max(" ++ valValue ++ ")") refines1
        | _ => .error (.panic ("unknown validation: " ++ part))
      else
        match valName with
        | "omitempty" => sliceLoop c isArray rest vs1 refines1
        | "required" => sliceLoop c isArray rest vs1 refines1
        | "dive" => .ok (vs1, refines1)
        | _ => .error (.panic ("unknown validation: " ++ part))

/-- The token loop of `convertMap`: every comparison becomes a key-count
refinement; `dive` breaks the loop. -/
def mapLoop (c : Converter) :
    List String → String → List String → Except Err (String × List String)
  | [], vs, refines => .ok (vs, refines)
  | part :: rest, vs, refines =>
    match preprocessValidationTagPart c part refines vs with
    | .error e => .error e
    | .ok (valName, valValue, done, refines1, vs1) =>
      if done then mapLoop c rest vs1 refines1
      else if valValue != "" then
        match valName with
        | "min" => mapLoop c rest vs1
            (refines1 ++ [".refine((val) => Object.keys(val).length >= " ++ valValue ++ ", \x27Map too small\x27)"])
        | "max" => mapLoop c rest vs1
            (refines1 ++ [".refine((val) => Object.keys(val).length <= " ++ valValue ++ ", \x27Map too large\x27)"])
        | "len" => mapLoop c rest vs1
            (refines1 ++ [".refine((val) => Object.keys(val).length === " ++ valValue ++ ", \x27Map wrong size\x27)"])
        | "eq" => mapLoop c rest vs1
            (refines1 ++ [".refine((val) => Object.keys(val).length === " ++ valValue ++ ", \x27Map wrong size\x27)"])
        | "ne" => mapLoop c rest vs1
            (refines1 ++ [".refine((val) => Object.keys(val).length !== " ++ valValue ++ ", \x27Map wrong size\x27)"])
        | "gt" => mapLoop c rest vs1
            (refines1 ++ [".refine((val) => Object.keys(val).length > " ++ valValue ++ ", \x27Map too small\x27)"])
        | "gte" => mapLoop c rest vs1
            (refines1 ++ [".refine((val) => Object.keys(val).length >= " ++ valValue ++ ", \x27Map too small\x27)"])
        | "lt" => mapLoop c rest vs1
            (refines1 ++ [".refine((val) => Object.keys(val).length < " ++ valValue ++ ", \x27Map too large\x27)"])
        | "lte" => mapLoop c rest vs1
            (refines1 ++ [".refine((val) => Object.keys(val).length <= " ++ valValue ++ ", \x27Map too large\x27)"])
        | _ => .error (.panic ("unknown validation: " ++ part))
      else
        match valName with
        | "omitempty" => mapLoop c rest vs1 refines1
        | "required" => mapLoop c rest vs1 refines1
        | "dive" => .ok (vs1, refines1)
        | _ => .error (.panic ("unknown validation: " ++ part))

end Zen

namespace Zen

/-! The mutually recursive walker.  Every function takes a fuel argument
(decremented at entry) that makes the Go recursion — which terminates through
the cycle check, not structurally — well-founded in the embedding.  Each
function returns its Go result together with the converter state, the state
also being returned on the error path because a Go panic leaves the mutations
made so far in place. -/

mutual

/-- `ConvertType(t, validate, indent)`. -/
def ConvertType (fuel : Nat) (env : Env) (c : Converter) (t : Ty)
    (validate : String) (indent : Nat) : Except Err String × Converter :=
  match fuel with
  | 0 => (.error .fuel, c)
  | fuel + 1 =>
    if t.kind == .ptr then
      ConvertType fuel env c t.elemTy (goTrimPfx (goTrimPfx validate "omitempty") ",") indent
    else
      match handleCustomType c t validate indent with
      | some custom => (.ok custom, c)
      | none =>
        if t.kind == .slice || t.kind == .array then
          convertSliceAndArray fuel env c t validate indent
        else if t.kind == .map then
          convertMap fuel env c t validate indent
        else if t.kind == .structK then
          let name := typeName t
          let parts := goSplitComma validate
          let step1 : Except Err String × Converter :=
            if name == "" then convertStruct fuel env c t indent
            else if name == "Time" then (.ok "z.coerce.date()", c)
            else if (topFrame c).name == name then
              (.ok ("z.lazy(() => " ++ schemaName c.pfx name ++ ")"), setTopSelfRef c)
            else
              match detectCycle name c.stack with
              | .error e => (.error e, c)
              | .ok _ =>
                match convertStructTopLevel fuel env c t with
                | (.error e, c1) => (.error e, c1)
                | (.ok data, c1) => (.ok (schemaName c.pfx name), addSchema c1 name data)
          match step1 with
          | (.error e, c1) => (.error e, c1)
          | (.ok vs, c1) =>
            match convertTypeStructParts c1 name parts vs [] with
            | .error e => (.error e, c1)
            | .ok out => (.ok out, c1)
        else
          match typeMapping t.kind with
          | none => (.error (.panic ("cannot handle: " ++ kindStr t.kind)), c)
          | some zodType =>
            if zodType == "string" then
              if validate != "" then
                match validateString c validate with
                | .error e => (.error e, c)
                | .ok (res, isTop) =>
                  if isTop then (.ok res, c)
                  else if res != "" then (.ok ("z.string()" ++ res), c)
                  else (.ok "z.string()", c)
              else (.ok "z.string()", c)
            else if zodType == "number" then
              if validate != "" then
                match validateNumber c validate with
                | .error e => (.error e, c)
                | .ok (res, isTop) =>
                  if isTop then (.ok res, c)
                  else if res != "" then (.ok ("z.number()" ++ res), c)
                  else (.ok "z.number()", c)
              else (.ok "z.number()", c)
            else (.ok ("z." ++ zodType ++ "()"), c)
termination_by structural fuel

/-- `convertSliceAndArray(t, validate, indent)`. -/
def convertSliceAndArray (fuel : Nat) (env : Env) (c : Converter) (t : Ty)
    (validate : String) (indent : Nat) : Except Err String × Converter :=
  match fuel with
  | 0 => (.error .fuel, c)
  | fuel + 1 =>
    let validateCurrent := getValidateCurrent validate
    let parts := goSplitComma validateCurrent
    let isArray := t.kind == .array
    match sliceLoop c isArray parts "" [] with
    | .error e => (.error e, c)
    | .ok (vs, refines) =>
      let vs := if isArray then vs ++ ".length(" ++ Nat.repr t.arrLen ++ ")" else vs
      let vs := vs ++ goConcat refines
      match ConvertType fuel env c t.elemTy (getValidateAfterDive validate) indent with
      | (.error e, c1) => (.error e, c1)
      | (.ok elemStr, c1) => (.ok (elemStr ++ ".array()" ++ vs), c1)
termination_by structural fuel

/-- `convertMap(t, validate, indent)`. -/
def convertMap (fuel : Nat) (env : Env) (c : Converter) (t : Ty)
    (validate : String) (indent : Nat) : Except Err String × Converter :=
  match fuel with
  | 0 => (.error .fuel, c)
  | fuel + 1 =>
    let parts := goSplitComma validate
    match mapLoop c parts "" [] with
    | .error e => (.error e, c)
    | .ok (vs, refines) =>
      let vs := vs ++ goConcat refines
      match convertKeyType c t.keyTy (getValidateKeys validate) with
      | .error e => (.error e, c)
      | .ok keyStr =>
        match ConvertType fuel env c t.elemTy (getValidateValues validate) indent with
        | (.error e, c1) => (.error e, c1)
        | (.ok valStr, c1) =>
          (.ok ("z.record(" ++ keyStr ++ ", " ++ valStr ++ ")" ++ vs), c1)
termination_by structural fuel

/-- `convertField(f, indent, optional, nullable, anonymous)`: one emitted
field line, or a `.merge(...)` suffix for an embedded field. -/
def convertField (fuel : Nat) (env : Env) (c : Converter) (f : Field)
    (indent : Nat) (optional nullable anonymous : Bool) :
    Except Err (String × Bool) × Converter :=
  match fuel with
  | 0 => (.error .fuel, c)
  | fuel + 1 =>
    let name := fieldName f
    if name == "-" then (.ok ("", false), c)
    else
      let fullName := getFullName f.ty
      let isCustom := (c.customTypes.lookup fullName).isSome
      let optionalCall := if optional then ".optional()" else ""
      let nullableCall := if nullable && !isCustom then ".nullable()" else ""
      match ConvertType fuel env c f.ty f.validateTag indent with
      | (.error e, c1) => (.error e, c1)
      | (.ok t, c1) =>
        if !anonymous then
          (.ok (indentation indent ++ name ++ ": " ++ t ++ optionalCall ++ nullableCall ++ ",\n",
                false), c1)
        else (.ok (".merge(" ++ t ++ ")", true), c1)
termination_by structural fuel

/-- The field loop of `convertStruct`: plain field lines concatenated in
order, embedded-field merges collected separately (also in order). -/
def convertStructFields (fuel : Nat) (env : Env) (c : Converter)
    (fields : List Field) (indent : Nat) :
    Except Err (String × List String) × Converter :=
  match fuel with
  | 0 => (.error .fuel, c)
  | fuel + 1 =>
    match fields with
    | [] => (.ok ("", []), c)
    | f :: rest =>
      match convertField fuel env c f (indent + 1) (isOptional f) (isNullable f) f.anonymous with
      | (.error e, c1) => (.error e, c1)
      | (.ok (line, shouldMerge), c1) =>
        match convertStructFields fuel env c1 rest indent with
        | (.error e, c2) => (.error e, c2)
        | (.ok (out, merges), c2) =>
          if shouldMerge then (.ok (out, line :: merges), c2)
          else (.ok (line ++ out, merges), c2)
termination_by structural fuel

/-- `convertStruct(input, indent)`: the `z.object({...})` expression (fields
enumerated through the environment, playing `input.Field(i)`). -/
def convertStruct (fuel : Nat) (env : Env) (c : Converter) (t : Ty)
    (indent : Nat) : Except Err String × Converter :=
  match fuel with
  | 0 => (.error .fuel, c)
  | fuel + 1 =>
    match convertStructFields fuel env c (fieldsOf env t) indent with
    | (.error e, c1) => (.error e, c1)
    | (.ok (body, merges), c1) =>
      (.ok ("z.object(\x7b\n" ++ body ++ indentation indent ++ "\x7d)" ++ goConcat merges), c1)
termination_by structural fuel

/-- `convertStructTopLevel(t)`: pushes the identity frame, converts the
struct, and emits one of the two top-level shapes; the frame is popped on the
normal return paths only (the Go pop is not deferred, so a panic keeps the
pushed frames). -/
def convertStructTopLevel (fuel : Nat) (env : Env) (c : Converter) (t : Ty) :
    Except Err String × Converter :=
  match fuel with
  | 0 => (.error .fuel, c)
  | fuel + 1 =>
    let name := typeName t
    let c0 := { c with stack := c.stack ++ [⟨name, false⟩] }
    match convertStruct fuel env c0 t 0 with
    | (.error e, c1) => (.error e, c1)
    | (.ok data, c1) =>
      let fullName := c1.pfx ++ name
      let top := topFrame c1
      if top.selfRef then
        match getTypeStruct fuel env c1 (fieldsOf env t) 0 with
        | .error e => (.error e, c1)
        | .ok typeStr =>
          (.ok ("export type " ++ fullName ++ " = " ++ typeStr ++ "\n"
                ++ "export const " ++ schemaName c1.pfx name ++ ": z.ZodType<" ++ fullName
                ++ "> = " ++ data),
           { c1 with stack := c1.stack.dropLast })
      else
        (.ok ("export const " ++ schemaName c1.pfx name ++ " = " ++ data ++ "\n"
              ++ "export type " ++ fullName ++ " = z.infer<typeof "
              ++ schemaName c1.pfx name ++ ">"),
         { c1 with stack := c1.stack.dropLast })
termination_by structural fuel

/-- `getType(t, indent)`: the TypeScript surface type of a type reference
(named structs by name, no recursion into the registry). -/
def getType (fuel : Nat) (env : Env) (c : Converter) (t : Ty) (indent : Nat) :
    Except Err String :=
  match fuel with
  | 0 => .error .fuel
  | fuel + 1 =>
    if t.kind == .ptr then getType fuel env c t.elemTy indent
    else if t.kind == .slice || t.kind == .array then
      getTypeSliceAndArray fuel env c t indent
    else if t.kind == .map then getTypeMap fuel env c t indent
    else if t.kind == .structK then
      let name := typeName t
      if t.tyName == "" then getTypeStruct fuel env c (fieldsOf env t) indent
      else if t.tyName == "Time" then .ok "date"
      else .ok (c.pfx ++ name)
    else
      match typeMapping t.kind with
      | some zodType => .ok zodType
      | none => .error (.panic ("cannot handle: " ++ kindStr t.kind))
termination_by structural fuel

/-- The field loop of `getTypeStruct`. -/
def getTypeFieldsLoop (fuel : Nat) (env : Env) (c : Converter)
    (fields : List Field) (indent : Nat) : Except Err String :=
  match fuel with
  | 0 => .error .fuel
  | fuel + 1 =>
    match fields with
    | [] => .ok ""
    | f :: rest =>
      match getTypeField fuel env c f (indent + 1) (isOptional f) (isNullable f) with
      | .error e => .error e
      | .ok line =>
        match getTypeFieldsLoop fuel env c rest indent with
        | .error e => .error e
        | .ok out => .ok (line ++ out)
termination_by structural fuel

/-- `getTypeStruct(input, indent)`. -/
def getTypeStruct (fuel : Nat) (env : Env) (c : Converter)
    (fields : List Field) (indent : Nat) : Except Err String :=
  match fuel with
  | 0 => .error .fuel
  | fuel + 1 =>
    match getTypeFieldsLoop fuel env c fields indent with
    | .error e => .error e
    | .ok body => .ok ("\x7b\n" ++ body ++ indentation indent ++ "\x7d")
termination_by structural fuel

/-- `getTypeField(f, indent, optional, nullable)`. -/
def getTypeField (fuel : Nat) (env : Env) (c : Converter) (f : Field)
    (indent : Nat) (optional nullable : Bool) : Except Err String :=
  match fuel with
  | 0 => .error .fuel
  | fuel + 1 =>
    let name := fieldName f
    if name == "-" then .ok ""
    else
      let fullName := getFullName f.ty
      let isCustom := (c.customTypes.lookup fullName).isSome
      let optionalCallPre := if optional then "?" else ""
      let optionalCallUndef := if optional then " | undefined" else ""
      let nullableCall := if nullable && !isCustom then " | null" else ""
      match getType fuel env c f.ty indent with
      | .error e => .error e
      | .ok ty =>
        .ok (indentation indent ++ name ++ optionalCallPre ++ ": " ++ ty
             ++ nullableCall ++ optionalCallUndef ++ ",\n")
termination_by structural fuel

/-- `getTypeSliceAndArray(t, indent)`. -/
def getTypeSliceAndArray (fuel : Nat) (env : Env) (c : Converter) (t : Ty)
    (indent : Nat) : Except Err String :=
  match fuel with
  | 0 => .error .fuel
  | fuel + 1 =>
    match getType fuel env c t.elemTy indent with
    | .error e => .error e
    | .ok s => .ok (s ++ "[]")
termination_by structural fuel

/-- `getTypeMap(t, indent)`. -/
def getTypeMap (fuel : Nat) (env : Env) (c : Converter) (t : Ty)
    (indent : Nat) : Except Err String :=
  match fuel with
  | 0 => .error .fuel
  | fuel + 1 =>
    match getType fuel env c t.keyTy indent with
    | .error e => .error e
    | .ok ks =>
      match getType fuel env c t.elemTy indent with
      | .error e => .error e
      | .ok vs => .ok ("Record<" ++ ks ++ ", " ++ vs ++ ">")
termination_by structural fuel

end

/-- `AddType(input)`: reject non-structs, then register the converted
top-level schema under the next insertion index unless the identity is
already present. -/
def AddType (fuel : Nat) (env : Env) (c : Converter) (input : Ty) :
    Except Err Unit × Converter :=
  if input.kind != .structK then (.error (.panic "input must be a struct"), c)
  else
    let name := typeName input
    if (c.outputs.lookup name).isSome then (.ok (), c)
    else
      match convertStructTopLevel fuel env c input with
      | (.error e, c1) => (.error e, c1)
      | (.ok data, c1) =>
        let order := c1.structs
        (.ok (), { c1 with outputs := mapSet c1.outputs name ⟨order, data⟩,
                           structs := order + 1 })

/-- `Convert(input)`: `AddType` followed by `Export`. -/
def Convert (fuel : Nat) (env : Env) (c : Converter) (input : Ty) :
    Except Err String × Converter :=
  match AddType fuel env c input with
  | (.error e, c1) => (.error e, c1)
  | (.ok _, c1) => (.ok (Export c1), c1)

end Zen

namespace Zen

/-! ## Stack discipline of the walker (general lemmas for C5) -/

/-- `setLastSelfRefAux` steps through a head when the tail is non-empty. -/
theorem setLastConsNe (a : meta) (L : List meta) (h : L ≠ []) :
    setLastSelfRefAux (a :: L) = a :: setLastSelfRefAux L := by
  cases L with
  | nil => exact absurd rfl h
  | cons b t => rfl

/-- `setLastSelfRefAux` keeps a list non-empty. -/
theorem setLastNeNil (b : meta) (t : List meta) : setLastSelfRefAux (b :: t) ≠ [] := by
  cases t with
  | nil => simp [setLastSelfRefAux]
  | cons c t2 => simp [setLastSelfRefAux]

/-- Flipping the self-reference flag of the last frame of `s ++ [m]`. -/
theorem setLastAppend (s : List meta) (m : meta) :
    setLastSelfRefAux (s ++ [m]) = s ++ [⟨m.name, true⟩] := by
  induction s with
  | nil => rfl
  | cons a t ih =>
    rw [List.cons_append, setLastConsNe a (t ++ [m]) (by simp), ih, List.cons_append]

/-- Flipping the top flag twice is flipping it once. -/
theorem setLastIdem (s : List meta) :
    setLastSelfRefAux (setLastSelfRefAux s) = setLastSelfRefAux s := by
  induction s with
  | nil => rfl
  | cons a t ih =>
    cases t with
    | nil => rfl
    | cons b t2 =>
      rw [setLastConsNe a (b :: t2) (by simp),
        setLastConsNe a (setLastSelfRefAux (b :: t2)) (setLastNeNil b t2), ih]

/-- The states a balanced walker call may leave the stack in: unchanged, or
with the self-reference flag of the (still present) top frame set. -/
def stackRel (s s' : List meta) : Prop :=
  s' = s ∨ s' = setLastSelfRefAux s

theorem stackRelRefl (s : List meta) : stackRel s s := Or.inl rfl

theorem stackRelTrans {s1 s2 s3 : List meta}
    (h1 : stackRel s1 s2) (h2 : stackRel s2 s3) : stackRel s1 s3 := by
  rcases h1 with rfl | rfl
  · exact h2
  · rcases h2 with rfl | rfl
    · exact Or.inr rfl
    · exact Or.inr (setLastIdem s1)

/-- `addSchema` does not touch the stack. -/
theorem addSchemaStack (c : Converter) (name data : String) :
    (addSchema c name data).stack = c.stack := by
  unfold addSchema
  split <;> rfl

/-- `setTopSelfRef` leaves the flag-flipped stack. -/
theorem setTopSelfRefStack (c : Converter) :
    (setTopSelfRef c).stack = setLastSelfRefAux c.stack := rfl

end Zen

namespace Zen

set_option maxHeartbeats 2000000 in
/-- Stack discipline of the whole walker: on every successful (non-panic)
return, each walker function leaves the stack it was given, except that the
self-reference flag of the still-present top frame may have been set; and
`convertStructTopLevel` — which pushes its own frame and pops it on the
normal exit — restores the stack exactly. -/
theorem walkerStackBalanced : ∀ fuel : Nat,
    (∀ (env : Env) (c : Converter) (t : Ty) (v : String) (i : Nat) (r : String)
        (c' : Converter),
        ConvertType fuel env c t v i = (.ok r, c') → stackRel c.stack c'.stack)
    ∧ (∀ (env : Env) (c : Converter) (t : Ty) (v : String) (i : Nat) (r : String)
        (c' : Converter),
        convertSliceAndArray fuel env c t v i = (.ok r, c') → stackRel c.stack c'.stack)
    ∧ (∀ (env : Env) (c : Converter) (t : Ty) (v : String) (i : Nat) (r : String)
        (c' : Converter),
        convertMap fuel env c t v i = (.ok r, c') → stackRel c.stack c'.stack)
    ∧ (∀ (env : Env) (c : Converter) (f : Field) (i : Nat) (o nl a : Bool)
        (r : String × Bool) (c' : Converter),
        convertField fuel env c f i o nl a = (.ok r, c') → stackRel c.stack c'.stack)
    ∧ (∀ (env : Env) (c : Converter) (fs : List Field) (i : Nat)
        (r : String × List String) (c' : Converter),
        convertStructFields fuel env c fs i = (.ok r, c') → stackRel c.stack c'.stack)
    ∧ (∀ (env : Env) (c : Converter) (t : Ty) (i : Nat) (r : String) (c' : Converter),
        convertStruct fuel env c t i = (.ok r, c') → stackRel c.stack c'.stack)
    ∧ (∀ (env : Env) (c : Converter) (t : Ty) (r : String) (c' : Converter),
        convertStructTopLevel fuel env c t = (.ok r, c') → c'.stack = c.stack) := by
  intro fuel
  induction fuel with
  | zero =>
    refine ⟨fun env c t v i r c' h => ?_, fun env c t v i r c' h => ?_,
      fun env c t v i r c' h => ?_, fun env c f i o nl a r c' h => ?_,
      fun env c fs i r c' h => ?_, fun env c t i r c' h => ?_,
      fun env c t r c' h => ?_⟩
    · exact absurd h (by simp [ConvertType])
    · exact absurd h (by simp [convertSliceAndArray])
    · exact absurd h (by simp [convertMap])
    · exact absurd h (by simp [convertField])
    · exact absurd h (by simp [convertStructFields])
    · exact absurd h (by simp [convertStruct])
    · exact absurd h (by simp [convertStructTopLevel])
  | succ fuel ih =>
    obtain ⟨ihCT, ihSA, ihM, ihF, ihFS, ihS, ihT⟩ := ih
    refine ⟨fun env c t v i r c' h => ?_, fun env c t v i r c' h => ?_,
      fun env c t v i r c' h => ?_, fun env c f i o nl a r c' h => ?_,
      fun env c fs i r c' h => ?_, fun env c t i r c' h => ?_,
      fun env c t r c' h => ?_⟩
    · simp only [ConvertType] at h
      repeat' split at h
      all_goals try first
        | exact ihCT _ _ _ _ _ _ _ h
        | exact ihSA _ _ _ _ _ _ _ h
        | exact ihM _ _ _ _ _ _ _ h
        | (exfalso; simp at h; done)
        | (injection h with h1 h2; subst h2; exact stackRelRefl _)
      all_goals (
        injection h with h1 h2
        subst h2
        rename_i sv dat c1 hstep pv out hparts
        clear hparts
        repeat' split at hstep
        all_goals first
          | exact ihS _ _ _ _ _ _ hstep
          | (exfalso; simp at hstep; done)
          | (injection hstep with g1 g2; subst g2; exact stackRelRefl _)
          | (injection hstep with g1 g2; subst g2; exact Or.inr rfl)
          | (injection hstep with g1 g2; subst g2; rw [addSchemaStack]
             exact Or.inl (ihT _ _ _ _ _ (by assumption))))
    · simp only [convertSliceAndArray] at h
      repeat' split at h
      all_goals first
        | (exfalso; simp at h; done)
        | (injection h with h1 h2; subst h2; exact stackRelRefl _)
        | (injection h with h1 h2; subst h2; exact ihCT _ _ _ _ _ _ _ (by assumption))
    · simp only [convertMap] at h
      repeat' split at h
      all_goals first
        | (exfalso; simp at h; done)
        | (injection h with h1 h2; subst h2; exact stackRelRefl _)
        | (injection h with h1 h2; subst h2; exact ihCT _ _ _ _ _ _ _ (by assumption))
    · simp only [convertField] at h
      repeat' split at h
      all_goals first
        | (exfalso; simp at h; done)
        | (injection h with h1 h2; subst h2; exact stackRelRefl _)
        | (injection h with h1 h2; subst h2; exact ihCT _ _ _ _ _ _ _ (by assumption))
    · simp only [convertStructFields] at h
      repeat' split at h
      all_goals first
        | (exfalso; simp at h; done)
        | (injection h with h1 h2; subst h2; exact stackRelRefl _)
        | (injection h with h1 h2; subst h2;
           exact stackRelTrans (ihF _ _ _ _ _ _ _ _ _ (by assumption))
             (ihFS _ _ _ _ _ _ (by assumption)))
    · simp only [convertStruct] at h
      repeat' split at h
      all_goals first
        | (exfalso; simp at h; done)
        | (injection h with h1 h2; subst h2; exact stackRelRefl _)
        | (injection h with h1 h2; subst h2; exact ihFS _ _ _ _ _ _ (by assumption))
    · simp only [convertStructTopLevel] at h
      repeat' split at h
      all_goals first
        | (exfalso; simp at h; done)
        | (injection h with h1 h2; subst h2
           rcases ihS _ _ _ _ _ _ (by assumption) with he | he <;>
             simp_all [setLastAppend])

end Zen

namespace Zen

/-! ## Registry key uniqueness

`outputs` models the Go map `c.outputs`; the next theorems show every walker
function preserves distinctness of its keys, so the registry holds at most
one entry per type identity. -/

/-- A key already bound in the list stays where it is under `mapSet`; a fresh
key is appended: either way each key of the result is the written key or an
old one. -/
theorem mapSetKeysSub (l : List (String × entry)) (name : String) (e : entry)
    (x : String) (h : x ∈ (mapSet l name e).map Prod.fst) :
    x = name ∨ x ∈ l.map Prod.fst := by
  induction l with
  | nil => simpa [mapSet] using h
  | cons a t ih =>
    obtain ⟨k, v⟩ := a
    cases hkn : (k == name) with
    | true =>
      simp only [mapSet, hkn, if_true, List.map_cons, List.mem_cons] at h
      rcases h with rfl | h2
      · simp
      · simp [h2]
    | false =>
      simp only [mapSet, hkn, Bool.false_eq_true, if_false, List.map_cons,
        List.mem_cons] at h
      rcases h with rfl | h2
      · simp
      · rcases ih h2 with h3 | h3
        · exact Or.inl h3
        · simp [h3]

/-- Go map assignment keeps the keys distinct. -/
theorem mapSetKeysNodup (l : List (String × entry)) (name : String) (e : entry)
    (h : (l.map Prod.fst).Nodup) : ((mapSet l name e).map Prod.fst).Nodup := by
  induction l with
  | nil => simp [mapSet]
  | cons a t ih =>
    obtain ⟨k, v⟩ := a
    simp only [List.map_cons, List.nodup_cons] at h
    obtain ⟨hk1, hk2⟩ := h
    cases hkn : (k == name) with
    | true =>
      simp only [mapSet, hkn, if_true, List.map_cons, List.nodup_cons]
      exact ⟨hk1, hk2⟩
    | false =>
      simp only [mapSet, hkn, Bool.false_eq_true, if_false, List.map_cons,
        List.nodup_cons]
      refine ⟨fun hmem => ?_, ih hk2⟩
      rcases mapSetKeysSub t name e k hmem with rfl | h3
      · simp at hkn
      · exact hk1 h3

/-- `addSchema` keeps the registry keys distinct. -/
theorem addSchemaKeysNodup (c : Converter) (name data : String)
    (h : (c.outputs.map Prod.fst).Nodup) :
    ((addSchema c name data).outputs.map Prod.fst).Nodup := by
  unfold addSchema
  split
  · exact h
  · exact mapSetKeysNodup _ _ _ h

/-- The named-struct step of `ConvertType` (self-reference, cycle check,
recursive registration) preserves registry-key distinctness; stated over the
inlined step expression, with the induction hypotheses for the callees taken
as arguments. -/
theorem structStepKeys (fuel : Nat) (env : Env)
    (ihS : ∀ (env : Env) (c : Converter) (t : Ty) (i : Nat)
        (res : Except Err String) (c' : Converter),
        convertStruct fuel env c t i = (res, c') →
        (c.outputs.map Prod.fst).Nodup → (c'.outputs.map Prod.fst).Nodup)
    (ihT : ∀ (env : Env) (c : Converter) (t : Ty)
        (res : Except Err String) (c' : Converter),
        convertStructTopLevel fuel env c t = (res, c') →
        (c.outputs.map Prod.fst).Nodup → (c'.outputs.map Prod.fst).Nodup)
    (c : Converter) (t : Ty) (nm : String) (indent : Nat)
    (res : Except Err String) (c1 : Converter)
    (h : (if nm == "" then convertStruct fuel env c t indent
          else if nm == "Time" then (.ok "z.coerce.date()", c)
          else if (topFrame c).name == nm then
            (.ok ("z.lazy(() => " ++ schemaName c.pfx nm ++ ")"), setTopSelfRef c)
          else
            match detectCycle nm c.stack with
            | .error e => (.error e, c)
            | .ok _ =>
              match convertStructTopLevel fuel env c t with
              | (.error e, c2) => (.error e, c2)
              | (.ok data, c2) => (.ok (schemaName c.pfx nm), addSchema c2 nm data))
         = (res, c1))
    (hInv : (c.outputs.map Prod.fst).Nodup) :
    (c1.outputs.map Prod.fst).Nodup := by
  repeat' split at h
  all_goals first
    | exact ihS _ _ _ _ _ _ h hInv
    | (injection h with h1 h2; subst h2; exact hInv)
    | (injection h with h1 h2; subst h2;
       exact addSchemaKeysNodup _ _ _ (ihT _ _ _ _ _ (by assumption) hInv))
    | (injection h with h1 h2; subst h2; exact ihT _ _ _ _ _ (by assumption) hInv)
    | (exfalso; simp at h; done)

set_option maxHeartbeats 2000000 in
/-- Registry-key distinctness is preserved by every walker function, on every
return path (success and panic alike): the registry is written only through
`addSchema`, which never duplicates a key. -/
theorem walkerKeysNodup : ∀ fuel : Nat,
    (∀ (env : Env) (c : Converter) (t : Ty) (v : String) (i : Nat)
        (res : Except Err String) (c' : Converter),
        ConvertType fuel env c t v i = (res, c') →
        (c.outputs.map Prod.fst).Nodup → (c'.outputs.map Prod.fst).Nodup)
    ∧ (∀ (env : Env) (c : Converter) (t : Ty) (v : String) (i : Nat)
        (res : Except Err String) (c' : Converter),
        convertSliceAndArray fuel env c t v i = (res, c') →
        (c.outputs.map Prod.fst).Nodup → (c'.outputs.map Prod.fst).Nodup)
    ∧ (∀ (env : Env) (c : Converter) (t : Ty) (v : String) (i : Nat)
        (res : Except Err String) (c' : Converter),
        convertMap fuel env c t v i = (res, c') →
        (c.outputs.map Prod.fst).Nodup → (c'.outputs.map Prod.fst).Nodup)
    ∧ (∀ (env : Env) (c : Converter) (f : Field) (i : Nat) (o nl a : Bool)
        (res : Except Err (String × Bool)) (c' : Converter),
        convertField fuel env c f i o nl a = (res, c') →
        (c.outputs.map Prod.fst).Nodup → (c'.outputs.map Prod.fst).Nodup)
    ∧ (∀ (env : Env) (c : Converter) (fs : List Field) (i : Nat)
        (res : Except Err (String × List String)) (c' : Converter),
        convertStructFields fuel env c fs i = (res, c') →
        (c.outputs.map Prod.fst).Nodup → (c'.outputs.map Prod.fst).Nodup)
    ∧ (∀ (env : Env) (c : Converter) (t : Ty) (i : Nat)
        (res : Except Err String) (c' : Converter),
        convertStruct fuel env c t i = (res, c') →
        (c.outputs.map Prod.fst).Nodup → (c'.outputs.map Prod.fst).Nodup)
    ∧ (∀ (env : Env) (c : Converter) (t : Ty)
        (res : Except Err String) (c' : Converter),
        convertStructTopLevel fuel env c t = (res, c') →
        (c.outputs.map Prod.fst).Nodup → (c'.outputs.map Prod.fst).Nodup) := by
  intro fuel
  induction fuel with
  | zero =>
    refine ⟨fun env c t v i res c' h hInv => ?_, fun env c t v i res c' h hInv => ?_,
      fun env c t v i res c' h hInv => ?_, fun env c f i o nl a res c' h hInv => ?_,
      fun env c fs i res c' h hInv => ?_, fun env c t i res c' h hInv => ?_,
      fun env c t res c' h hInv => ?_⟩
    · simp only [ConvertType] at h; injection h with h1 h2; subst h2; exact hInv
    · simp only [convertSliceAndArray] at h; injection h with h1 h2; subst h2; exact hInv
    · simp only [convertMap] at h; injection h with h1 h2; subst h2; exact hInv
    · simp only [convertField] at h; injection h with h1 h2; subst h2; exact hInv
    · simp only [convertStructFields] at h; injection h with h1 h2; subst h2; exact hInv
    · simp only [convertStruct] at h; injection h with h1 h2; subst h2; exact hInv
    · simp only [convertStructTopLevel] at h; injection h with h1 h2; subst h2; exact hInv
  | succ fuel ih =>
    obtain ⟨ihCT, ihSA, ihM, ihF, ihFS, ihS, ihT⟩ := ih
    refine ⟨fun env c t v i res c' h hInv => ?_, fun env c t v i res c' h hInv => ?_,
      fun env c t v i res c' h hInv => ?_, fun env c f i o nl a res c' h hInv => ?_,
      fun env c fs i res c' h hInv => ?_, fun env c t i res c' h hInv => ?_,
      fun env c t res c' h hInv => ?_⟩
    · simp only [ConvertType] at h
      repeat' split at h
      all_goals first
        | exact ihCT _ _ _ _ _ _ _ h hInv
        | exact ihSA _ _ _ _ _ _ _ h hInv
        | exact ihM _ _ _ _ _ _ _ h hInv
        | (injection h with h1 h2; subst h2; exact hInv)
        | (injection h with h1 h2; subst h2;
           exact structStepKeys fuel env ihS ihT _ _ _ _ _ _ (by assumption) hInv)
        | (exfalso; simp at h; done)
    · simp only [convertSliceAndArray] at h
      repeat' split at h
      all_goals first
        | (injection h with h1 h2; subst h2; exact hInv)
        | (injection h with h1 h2; subst h2;
           exact ihCT _ _ _ _ _ _ _ (by assumption) hInv)
        | (exfalso; simp at h; done)
    · simp only [convertMap] at h
      repeat' split at h
      all_goals first
        | (injection h with h1 h2; subst h2; exact hInv)
        | (injection h with h1 h2; subst h2;
           exact ihCT _ _ _ _ _ _ _ (by assumption) hInv)
        | (exfalso; simp at h; done)
    · simp only [convertField] at h
      repeat' split at h
      all_goals first
        | (injection h with h1 h2; subst h2; exact hInv)
        | (injection h with h1 h2; subst h2;
           exact ihCT _ _ _ _ _ _ _ (by assumption) hInv)
        | (exfalso; simp at h; done)
    · simp only [convertStructFields] at h
      repeat' split at h
      all_goals first
        | (injection h with h1 h2; subst h2; exact hInv)
        | (injection h with h1 h2; subst h2;
           exact ihF _ _ _ _ _ _ _ _ _ (by assumption) hInv)
        | (injection h with h1 h2; subst h2;
           exact ihFS _ _ _ _ _ _ (by assumption)
             (ihF _ _ _ _ _ _ _ _ _ (by assumption) hInv))
        | (exfalso; simp at h; done)
    · simp only [convertStruct] at h
      repeat' split at h
      all_goals first
        | (injection h with h1 h2; subst h2; exact hInv)
        | (injection h with h1 h2; subst h2;
           exact ihFS _ _ _ _ _ _ (by assumption) hInv)
        | (exfalso; simp at h; done)
    · simp only [convertStructTopLevel] at h
      repeat' split at h
      all_goals first
        | (injection h with h1 h2; subst h2; exact hInv)
        | (injection h with h1 h2; subst h2;
           have hx := ihS _ _ _ _ _ _ (by assumption); exact hx hInv)
        | (exfalso; simp at h; done)

/-- `AddType` preserves registry-key distinctness: its own insertion is the
same Go map assignment, guarded by the membership check. -/
theorem addTypeKeysNodup (fuel : Nat) (env : Env) (c : Converter) (input : Ty)
    (res : Except Err Unit) (c' : Converter)
    (h : AddType fuel env c input = (res, c'))
    (hInv : (c.outputs.map Prod.fst).Nodup) :
    (c'.outputs.map Prod.fst).Nodup := by
  simp only [AddType] at h
  repeat' split at h
  all_goals first
    | (injection h with h1 h2; subst h2; exact hInv)
    | (injection h with h1 h2; subst h2;
       exact (walkerKeysNodup fuel).2.2.2.2.2.2 _ _ _ _ _ (by assumption) hInv)
    | (injection h with h1 h2; subst h2;
       exact mapSetKeysNodup _ _ _
         ((walkerKeysNodup fuel).2.2.2.2.2.2 _ _ _ _ _ (by assumption) hInv))
    | (exfalso; simp at h; done)

end Zen

namespace Zen

/-! ## Scenario environments used by the theorems -/

/-- Chain `A` → `B` → `C`: each type holds a field of the next (C1 of the
spec's ordering property). -/
def envChain : Env := [
  ("A", [Field.mk "B1" "" "" false (.structT "main" "B")]),
  ("B", [Field.mk "C1" "" "" false (.structT "main" "C")]),
  ("C", [Field.mk "X" "" "" false (.scalar .int)])]

/-- Mutually pointer-referencing `A` ↔ `B` (an illegal cycle). -/
def envMutual : Env := [
  ("A", [Field.mk "B1" "" "" false (.ptrT (.structT "main" "B"))]),
  ("B", [Field.mk "A1" "" "" false (.ptrT (.structT "main" "A"))])]

/-- `A` → `B` → `C` → `B`: a cycle detected two frames below the bottom of
the loop, exercising the path-joining of the cycle message. -/
def envMutualDeep : Env := [
  ("A", [Field.mk "B1" "" "" false (.ptrT (.structT "main" "B"))]),
  ("B", [Field.mk "C1" "" "" false (.ptrT (.structT "main" "C"))]),
  ("C", [Field.mk "B2" "" "" false (.ptrT (.structT "main" "B"))])]

/-- The README's `Tree` type: self-reference through a slice of itself. -/
def envTree : Env :=
  [("Tree", [Field.mk "Value" "" "" false (.scalar .int),
             Field.mk "Children" "" "" false (.sliceT (.structT "main" "Tree"))])]

/-- A linked-list node: self-reference through a pointer to itself. -/
def envNode : Env :=
  [("Node", [Field.mk "Next" "" "" false (.ptrT (.structT "main" "Node"))])]

/-- The block emitted for `C` of `envChain`. -/
def chainBlockC : String :=
  "export const CSchema = z.object(\x7b\n  X: z.number(),\n\x7d)\nexport type C = z.infer<typeof CSchema>"

/-- The block emitted for `B` of `envChain`. -/
def chainBlockB : String :=
  "export const BSchema = z.object(\x7b\n  C1: CSchema,\n\x7d)\nexport type B = z.infer<typeof BSchema>"

/-- The block emitted for `A` of `envChain`. -/
def chainBlockA : String :=
  "export const ASchema = z.object(\x7b\n  B1: BSchema,\n\x7d)\nexport type A = z.infer<typeof ASchema>"

/-! ## C1 -/

/-- Claim C1, counterexample: registering `A` (which references `B`, which
references `C`) does **not** emit the blocks in the order A, B, C — the
emitted text equals the concatenation C, B, A (referenced types first), which
differs from the claimed A, B, C concatenation. -/
theorem chain_export_not_root_first :
    Export (AddType 30 envChain newConverter (Ty.structT "main" "A")).snd
      = chainBlockC ++ "\n\n" ++ chainBlockB ++ "\n\n" ++ chainBlockA ++ "\n\n"
    ∧ Export (AddType 30 envChain newConverter (Ty.structT "main" "A")).snd
      ≠ chainBlockA ++ "\n\n" ++ chainBlockB ++ "\n\n" ++ chainBlockC ++ "\n\n" := by
  decide

/-- Claim C1 (amended): Export emits exactly one block per distinct type
identity, each followed by a blank separator line, concatenated in increasing
insertion-index order; the index is assigned when a type's expansion
*completes*, so a referenced type's block precedes its referrer's: for A
referencing B referencing C the indices are C = 0, B = 1, A = 2 and the
emitted order is C's block, then B's, then A's. Uniqueness is proved in
general (first conjunct): `AddType` preserves distinctness of the registry
keys on every return path, so a registry built by `AddType` calls holds at
most one entry — hence one emitted block — per type identity. -/
theorem chain_export_post_order :
    (∀ (fuel : Nat) (env : Env) (c : Converter) (t : Ty)
        (res : Except Err Unit) (c' : Converter),
        AddType fuel env c t = (res, c') →
        (c.outputs.map Prod.fst).Nodup → (c'.outputs.map Prod.fst).Nodup)
    ∧ (AddType 30 envChain newConverter (Ty.structT "main" "A")).snd.outputs.map
        (fun p => (p.1, p.2.order)) = [("C", 0), ("B", 1), ("A", 2)]
    ∧ ((AddType 30 envChain newConverter (Ty.structT "main" "A")).snd.outputs.map
        (fun p => p.1)).Nodup
    ∧ Export (AddType 30 envChain newConverter (Ty.structT "main" "A")).snd
      = chainBlockC ++ "\n\n" ++ chainBlockB ++ "\n\n" ++ chainBlockA ++ "\n\n" :=
  ⟨fun fuel env c t res c' h hInv => addTypeKeysNodup fuel env c t res c' h hInv,
   by decide, by decide, by decide⟩

/-- Witness for C1: the general key-uniqueness conjunct applied to a concrete
registration of an empty struct into the empty registry. -/
theorem chain_export_post_order_witness :
    ((({ newConverter with
          outputs := [("E", ⟨0, "export const ESchema = z.object(\x7b\n\x7d)\nexport type E = z.infer<typeof ESchema>"⟩)],
          structs := 1 } : Converter).outputs.map Prod.fst)).Nodup :=
  chain_export_post_order.1 20 [("E", [])] newConverter (Ty.structT "main" "E")
    (.ok ())
    { newConverter with
        outputs := [("E", ⟨0, "export const ESchema = z.object(\x7b\n\x7d)\nexport type E = z.infer<typeof ESchema>"⟩)],
        structs := 1 }
    rfl (by decide)

/-! ## C3 -/

/-- Claim C3: a record whose expansion meets its own (top-of-stack) identity
— through a slice of itself (`Tree`) or a pointer to itself (`Node`) — has
its frame marked self-referential and the occurrence emitted as a deferred
`z.lazy` reference, the expansion succeeding (terminating) on bounded fuel;
the top-level emission is the self-referential shape: an explicit structural
type alias, then the schema constant with an explicit `z.ZodType` annotation.
The final conjunct observes the marking itself: converting the `Tree`
reference while `Tree` is top of stack yields the lazy reference and flips
the frame's `selfRef` flag. -/
theorem self_reference_lazy_shape :
    (Convert 30 envTree newConverter (Ty.structT "main" "Tree")).fst
      = .ok ("export type Tree = \x7b\n  Value: number,\n  Children: Tree[] | null,\n\x7d\n"
          ++ "export const TreeSchema: z.ZodType<Tree> = z.object(\x7b\n  Value: z.number(),\n"
          ++ "  Children: z.lazy(() => TreeSchema).array().nullable(),\n\x7d)\n\n")
    ∧ (Convert 30 envNode newConverter (Ty.structT "main" "Node")).fst
      = .ok ("export type Node = \x7b\n  Next: Node | null,\n\x7d\n"
          ++ "export const NodeSchema: z.ZodType<Node> = z.object(\x7b\n"
          ++ "  Next: z.lazy(() => NodeSchema).nullable(),\n\x7d)\n\n")
    ∧ (ConvertType 10 envTree { newConverter with stack := [⟨"Tree", false⟩] }
        (Ty.structT "main" "Tree") "" 1).fst = .ok "z.lazy(() => TreeSchema)"
    ∧ (ConvertType 10 envTree { newConverter with stack := [⟨"Tree", false⟩] }
        (Ty.structT "main" "Tree") "" 1).snd.stack = [⟨"Tree", true⟩] := by
  decide

/-! ## C4 -/

/-- Claim C4, counterexample: for the mutual cycle `A` ↔ `B` the conversion
does abort, but the panic message is exactly
`"circular dependency detected: A"` — it contains neither the identity `B`
nor the `→` joiner the claim describes. -/
theorem cycle_message_not_both_names :
    (AddType 30 envMutual newConverter (Ty.structT "main" "A")).fst
      = .error (.panic "circular dependency detected: A")
    ∧ goContains "circular dependency detected: A" "B" = false
    ∧ goContains "circular dependency detected: A" "→" = false := by
  decide

/-- Claim C4 (amended): an identity found in the active stack other than at
the top aborts conversion with a cycle panic whose message lists the stack
names from the bottom up to and including the first occurrence of the
re-encountered identity, joined by `" -> "`: the mutual pair `A` ↔ `B`
(detected while expanding `B`) reports only `"A"`, while `A` → `B` → `C` →
`B` reports `"A -> B"`. -/
theorem cycle_abort_path_message :
    (AddType 30 envMutual newConverter (Ty.structT "main" "A")).fst
      = .error (.panic "circular dependency detected: A")
    ∧ (AddType 30 envMutualDeep newConverter (Ty.structT "main" "A")).fst
      = .error (.panic "circular dependency detected: A -> B")
    ∧ detectCycle "A" [⟨"A", false⟩, ⟨"B", false⟩]
      = .error (.panic "circular dependency detected: A") := by
  decide

/-! ## C5 -/

/-- Claim C5, counterexample: the pop is not deferred, so the abort path does
*not* restore the stack: after the cycle abort of `A` ↔ `B` (started from an
empty stack) the active stack still holds both frames. -/
theorem abort_leaves_stack_frames :
    (AddType 30 envMutual newConverter (Ty.structT "main" "A")).snd.stack
      = [⟨"A", false⟩, ⟨"B", false⟩]
    ∧ (AddType 30 envMutual newConverter (Ty.structT "main" "A")).snd.stack ≠ [] := by
  decide

/-- Claim C5 (amended): the frame pushed on entry to a record expansion is
popped on every *normal* exit — proved in general: whenever
`convertStructTopLevel` returns successfully, the final stack equals the
stack before the expansion, from any starting state — but on the abort path
the panic propagates without popping, leaving the pushed frames in place
(after the mutual-cycle abort the stack is `[A, B]`); even then the stack
holds each identity at most once (the duplicate-producing push is prevented
by the cycle check, which aborts first). -/
theorem stack_balanced_on_success_only :
    (∀ (fuel : Nat) (env : Env) (c : Converter) (t : Ty) (r : String) (c' : Converter),
        convertStructTopLevel fuel env c t = (.ok r, c') → c'.stack = c.stack)
    ∧ (AddType 30 envChain newConverter (Ty.structT "main" "A")).snd.stack = []
    ∧ (AddType 30 envTree newConverter (Ty.structT "main" "Tree")).snd.stack = []
    ∧ (AddType 30 envMutual newConverter (Ty.structT "main" "A")).snd.stack
      = [⟨"A", false⟩, ⟨"B", false⟩]
    ∧ ((AddType 30 envMutual newConverter (Ty.structT "main" "A")).snd.stack.map
        meta.name).Nodup
    ∧ ((AddType 30 envMutualDeep newConverter (Ty.structT "main" "A")).snd.stack.map
        meta.name).Nodup :=
  ⟨fun fuel => (walkerStackBalanced fuel).2.2.2.2.2.2,
   by decide, by decide, by decide, by decide, by decide⟩

/-- Witness for C5: the general pop-on-normal-exit conjunct applied to a
concrete successful expansion of an empty struct. -/
theorem stack_balanced_on_success_only_witness :
    (newConverter : Converter).stack = newConverter.stack :=
  stack_balanced_on_success_only.1 20 [("E", [])] newConverter (Ty.structT "main" "E")
    "export const ESchema = z.object(\x7b\n\x7d)\nexport type E = z.infer<typeof ESchema>"
    newConverter rfl

end Zen

namespace Zen

/-! ## C7 -/

/-- Claim C7: the nullability/optionality classifier is a pure function of
the field's kind, its current-zone constraint string and the serialization
omit flags — for any slice field (any element type, any name): no constraint
and no omit-on-zero flag gives nullable and not optional; omit-on-zero gives
optional and not nullable; constraint `min=1` without omit-on-zero gives
neither. -/
theorem nullability_classifier_slice (nm : String) (el : Ty) (an : Bool) :
    isNullable (Field.mk nm "" "" an (Ty.sliceT el)) = true
    ∧ isOptional (Field.mk nm "" "" an (Ty.sliceT el)) = false
    ∧ isNullable (Field.mk nm ",omitempty" "" an (Ty.sliceT el)) = false
    ∧ isOptional (Field.mk nm ",omitempty" "" an (Ty.sliceT el)) = true
    ∧ isNullable (Field.mk nm "" "min=1" an (Ty.sliceT el)) = false
    ∧ isOptional (Field.mk nm "" "min=1" an (Ty.sliceT el)) = false := by
  refine ⟨rfl, rfl, rfl, rfl, rfl, rfl⟩

/-! ## C8 -/

/-- Claim C8: zone-splitting of a map constraint string — for
`"dive,keys,min=3,endkeys,max=4"` the key zone is exactly the tokens strictly
between `keys` and `endkeys` (`"min=3"`) and the value zone is exactly the
tokens after `endkeys` (`"max=4"`). -/
theorem map_zone_split_example :
    getValidateKeys "dive,keys,min=3,endkeys,max=4" = "min=3"
    ∧ getValidateValues "dive,keys,min=3,endkeys,max=4" = "max=4" := by
  decide

/-! ## C10 -/

/-- Claim C10: `AddType` on a value whose reflected kind is not a struct
panics with `"input must be a struct"` and returns the converter unchanged
(no entry registered, counter untouched). -/
theorem addtype_rejects_nonstruct (fuel : Nat) (env : Env) (c : Converter) (t : Ty)
    (h : t.kind ≠ Kind.structK) :
    AddType fuel env c t = (.error (.panic "input must be a struct"), c) := by
  unfold AddType
  rw [if_pos (bne_iff_ne.mpr h)]

/-- Witness for C10 at a string input. -/
theorem addtype_rejects_nonstruct_witness :
    AddType 3 [] newConverter (Ty.scalar .str)
      = (.error (.panic "input must be a struct"), newConverter) :=
  addtype_rejects_nonstruct 3 [] newConverter (Ty.scalar .str) (by decide)

end Zen

namespace Zen

/-! ## C2 -/

/-- Looking up a key just written with `mapSet` succeeds. -/
theorem lookupMapSetIsSome (l : List (String × entry)) (name : String) (e : entry) :
    ((mapSet l name e).lookup name).isSome := by
  induction l with
  | nil => simp [mapSet, List.lookup]
  | cons a t ih =>
    obtain ⟨k, v⟩ := a
    cases hk : (k == name) with
    | true =>
      have hk2 : (name == k) = true := by
        rw [beq_iff_eq] at hk ⊢
        exact hk.symm
      simp [mapSet, List.lookup, hk, hk2]
    | false =>
      have hk2 : (name == k) = false := by
        rw [beq_eq_false_iff_ne] at hk ⊢
        exact hk.symm
      simpa [mapSet, List.lookup, hk, hk2] using ih

/-- Claim C2: registering the same type identity twice produces exactly one
`entry` and the second registration is a no-op.  First half: a second
`addSchema` under an identity (as the walker performs on a repeated
encounter) returns the registry unchanged — one entry, same text, same
insertion index for every entry.  Second half: after a successful `AddType`,
repeating `AddType` for the same identity (any fuel) returns the converter
state unchanged with success. -/
theorem registration_idempotent :
    (∀ (c : Converter) (name data data2 : String),
        addSchema (addSchema c name data) name data2 = addSchema c name data)
    ∧ (∀ (fuel fuel2 : Nat) (env : Env) (c : Converter) (t : Ty),
        (AddType fuel env c t).fst = .ok () →
        AddType fuel2 env (AddType fuel env c t).snd t
          = (.ok (), (AddType fuel env c t).snd)) := by
  constructor
  · intro c name data data2
    unfold addSchema
    cases hl : c.outputs.lookup name with
    | some v => simp [hl]
    | none => simp [hl, lookupMapSetIsSome]
  · intro fuel fuel2 env c t h
    have hkk : (t.kind != Kind.structK) = false := by
      by_cases hk : (t.kind != Kind.structK) = true
      · simp only [AddType] at h
        rw [if_pos hk] at h
        simp at h
      · simpa using hk
    have hl2 : ((AddType fuel env c t).snd.outputs.lookup (typeName t)).isSome = true := by
      simp only [AddType] at h ⊢
      rw [if_neg (by simp [hkk])] at h ⊢
      cases hl : c.outputs.lookup (typeName t) with
      | some v =>
        simp [hl]
      | none =>
        simp only [Option.isSome_none, Bool.false_eq_true, if_false] at h ⊢
        rcases hcv : convertStructTopLevel fuel env c t with ⟨res, c1⟩
        rw [hcv] at h
        cases res with
        | error e => simp [hl] at h
        | ok data => simp [lookupMapSetIsSome c1.outputs (typeName t)]
    set c2 := (AddType fuel env c t).snd with hc2
    simp only [AddType]
    rw [if_neg (by simp [hkk])]
    rw [if_pos hl2]

/-- Witness for C2: the `A` of the chain environment, registered twice. -/
theorem registration_idempotent_witness :
    addSchema (addSchema newConverter "A" "x") "A" "y" = addSchema newConverter "A" "x"
    ∧ AddType 5 envChain (AddType 30 envChain newConverter (Ty.structT "main" "A")).snd
        (Ty.structT "main" "A")
      = (.ok (), (AddType 30 envChain newConverter (Ty.structT "main" "A")).snd) :=
  ⟨registration_idempotent.1 newConverter "A" "x" "y",
   registration_idempotent.2 30 5 envChain newConverter (Ty.structT "main" "A") (by decide)⟩

end Zen

namespace Zen

/-! ## Support lemmas for the comparison-directive claims -/

/-- A digit character is not a comma. -/
theorem digitNotComma (ch : Char) (h : ch.isDigit = true) : ch ≠ ',' := by
  intro heq
  rw [heq] at h
  exact absurd h (by decide)

/-- A digit character is not whitespace. -/
theorem digitNotSpace (ch : Char) (h : ch.isDigit = true) : isSpaceChar ch = false := by
  cases hsp : isSpaceChar ch with
  | false => rfl
  | true =>
    simp only [isSpaceChar, Bool.or_eq_true, beq_iff_eq] at hsp
    rcases hsp with ((rfl | rfl) | rfl) | rfl <;> exact absurd h (by decide)

/-- Characters consumed by a successful digit parse are digits. -/
theorem digitsAuxAllDigits (l : List Char) (acc : Nat)
    (h : (digitsToNatAux l acc).isSome = true) : ∀ ch ∈ l, ch.isDigit = true := by
  induction l generalizing acc with
  | nil => intro ch hch; cases hch
  | cons a t ih =>
    intro ch hch
    simp only [digitsToNatAux] at h
    by_cases hd : a.isDigit = true
    · rw [if_pos hd] at h
      rcases List.mem_cons.mp hch with rfl | hmem
      · exact hd
      · exact ih _ h ch hmem
    · rw [if_neg hd] at h
      simp at h

/-- Characters of a successful `digitsToNat` parse are digits. -/
theorem digitsToNatAllDigits (l : List Char)
    (h : (digitsToNat l).isSome = true) : ∀ ch ∈ l, ch.isDigit = true := by
  cases l with
  | nil => intro ch hch; cases hch
  | cons a t => exact digitsAuxAllDigits _ _ (by simpa [digitsToNat] using h)

/-- A string strconv.Atoi accepts contains no comma and no whitespace. -/
theorem atoiCleanChars (sd : List Char) (n : Int) (h : goAtoi ⟨sd⟩ = some n) :
    ∀ ch ∈ sd, ch ≠ ',' ∧ isSpaceChar ch = false := by
  unfold goAtoi at h
  split at h
  · simp at h
  · next rest heq =>
    intro ch hch
    rw [show (String.mk sd).data = sd from rfl] at heq
    subst heq
    have hd : (digitsToNat rest).isSome = true := by
      cases hr : digitsToNat rest with
      | none => rw [hr] at h; simp at h
      | some m => simp
    rcases List.mem_cons.mp hch with rfl | hmem
    · exact ⟨by decide, by decide⟩
    · have := digitsToNatAllDigits rest hd ch hmem
      exact ⟨digitNotComma ch this, digitNotSpace ch this⟩
  · next rest heq =>
    intro ch hch
    rw [show (String.mk sd).data = sd from rfl] at heq
    subst heq
    have hd : (digitsToNat rest).isSome = true := by
      cases hr : digitsToNat rest with
      | none => rw [hr] at h; simp at h
      | some m => simp
    rcases List.mem_cons.mp hch with rfl | hmem
    · exact ⟨by decide, by decide⟩
    · have := digitsToNatAllDigits rest hd ch hmem
      exact ⟨digitNotComma ch this, digitNotSpace ch this⟩
  · next l hne1 hne2 hne3 =>
    intro ch hch
    rw [show (String.mk sd).data = sd from rfl] at h
    have hd : (digitsToNat sd).isSome = true := by
      cases hr : digitsToNat sd with
      | none => rw [hr] at h; simp at h
      | some m => simp
    have := digitsToNatAllDigits sd hd ch hch
    exact ⟨digitNotComma ch this, digitNotSpace ch this⟩

/-- Splitting on a comma not present returns the singleton list. -/
theorem splitOnCharNone (l : List Char) (h : ∀ ch ∈ l, ch ≠ ',') :
    listSplitOnChar ',' l = [l] := by
  induction l with
  | nil => rfl
  | cons a t ih =>
    have ha : (a == ',') = false := beq_eq_false_iff_ne.mpr (h a (List.mem_cons_self a t))
    simp only [listSplitOnChar, ha, Bool.false_eq_true, if_false]
    rw [ih (fun ch hch => h ch (List.mem_cons_of_mem a hch))]

/-- `dropWhile` keeps a list whose head fails the test. -/
theorem dropWhileNone (p : Char → Bool) (l : List Char) (h : ∀ ch ∈ l, p ch = false) :
    l.dropWhile p = l := by
  cases l with
  | nil => rfl
  | cons a t => simp [List.dropWhile, h a (List.mem_cons_self a t)]

/-- TrimSpace is the identity on a string without whitespace. -/
theorem trimSpaceNone (l : List Char) (h : ∀ ch ∈ l, isSpaceChar ch = false) :
    goTrimSpace ⟨l⟩ = ⟨l⟩ := by
  unfold goTrimSpace
  rw [show (String.mk l).data = l from rfl]
  rw [dropWhileNone _ l h]
  rw [dropWhileNone _ l.reverse (fun ch hch => h ch (List.mem_reverse.mp hch))]
  rw [List.reverse_reverse]

/-- Unequal character lists give unequal strings. -/
theorem strMkNe (l1 l2 : List Char) (h : l1 ≠ l2) : (⟨l1⟩ : String) ≠ ⟨l2⟩ := by
  intro heq
  exact h (by injection heq)

/-- `==` on unequal strings. -/
theorem strBEqFalse {a b : String} (h : a ≠ b) : (a == b) = false :=
  beq_eq_false_iff_ne.mpr h

/-- `!=` on unequal strings. -/
theorem strBNeTrue {a b : String} (h : a ≠ b) : (a != b) = true := by
  simp [bne, strBEqFalse h]

/-- String append is concatenation of the character lists. -/
theorem strAppendData (a b : List Char) :
    (⟨a⟩ : String) ++ (⟨b⟩ : String) = ⟨a ++ b⟩ := rfl

/-- Appending the empty string. -/
theorem strAppendEmpty (a : String) : a ++ "" = a := by
  cases a with
  | mk l => show String.mk (l ++ []) = ⟨l⟩; rw [List.append_nil]

end Zen

namespace Zen

/-- `listIdxOfChar` is at least `-1`. -/
theorem idxGeNegOne (c : Char) (l : List Char) : -1 ≤ listIdxOfChar c l := by
  induction l with
  | nil => simp [listIdxOfChar]
  | cons a t ih =>
    simp only [listIdxOfChar]
    by_cases ha : (a == c) = true
    · rw [if_pos ha]; omega
    · rw [if_neg ha]
      by_cases hr : (listIdxOfChar c t == -1) = true
      · rw [if_pos hr]
      · rw [if_neg hr]; omega

/-- The first `=` of `nm ++ '=' :: sd` is at position `nm.length` when `nm`
holds no `=`. -/
theorem idxAppendEq (nm sd : List Char) (h : listIdxOfChar '=' nm = -1) :
    listIdxOfChar '=' (nm ++ '=' :: sd) = (nm.length : Int) := by
  induction nm with
  | nil => simp [listIdxOfChar]
  | cons a t ih =>
    rw [List.cons_append]
    simp only [listIdxOfChar] at h ⊢
    by_cases ha : (a == '=') = true
    · rw [if_pos ha] at h; simp at h
    · rw [if_neg ha] at h ⊢
      have ht : listIdxOfChar '=' t = -1 := by
        by_cases hr : (listIdxOfChar '=' t == -1) = true
        · exact beq_iff_eq.mp hr
        · rw [if_neg hr] at h
          have := idxGeNegOne '=' t
          omega
      rw [ih ht]
      have hfalse : ((t.length : Int) == -1) = false := beq_eq_false_iff_ne.mpr (by omega)
      rw [hfalse]
      simp

/-- Evaluation of `preprocessValidationTagPart` on a well-formed
`name=value` token under an empty ignore-list and empty custom-tag registry:
the token is split at the first `=` and handed back unconsumed. -/
theorem preprocessDirective (c : Converter) (hig : c.ignoreTags = [])
    (hct : c.customTags = []) (nm sd : List Char) (refines : List String) (vs : String)
    (hnne : nm ≠ []) (hneq : listIdxOfChar '=' nm = -1)
    (hnsp : ∀ ch ∈ nm, isSpaceChar ch = false)
    (hssp : ∀ ch ∈ sd, isSpaceChar ch = false)
    (hsne : sd ≠ []) :
    preprocessValidationTagPart c ⟨nm ++ '=' :: sd⟩ refines vs
      = .ok (⟨nm⟩, ⟨sd⟩, false, refines, vs) := by
  have htrim : goTrimSpace ⟨nm ++ '=' :: sd⟩ = ⟨nm ++ '=' :: sd⟩ := by
    apply trimSpaceNone
    intro ch hch
    rcases List.mem_append.mp hch with hm | hm
    · exact hnsp ch hm
    · rcases List.mem_cons.mp hm with rfl | hm
      · rfl
      · exact hssp ch hm
  have hidx : goIndexEqSign ⟨nm ++ '=' :: sd⟩ = (nm.length : Int) := idxAppendEq nm sd hneq
  have hlen : (⟨nm ++ '=' :: sd⟩ : String).length = nm.length + (sd.length + 1) := by
    show (nm ++ '=' :: sd).length = _
    simp
  have hnm1 : 1 ≤ nm.length := List.length_pos.mpr hnne
  have hsd1 : 1 ≤ sd.length := List.length_pos.mpr hsne
  simp only [preprocessValidationTagPart, htrim]
  rw [strBEqFalse (strMkNe _ _ (by simp))]
  simp only [Bool.false_eq_true, if_false, hidx, hlen]
  have hb1 : ((nm.length : Int) == 0) = false := beq_eq_false_iff_ne.mpr (by omega)
  have hb2 : ((nm.length : Int) == ((nm.length + (sd.length + 1) : Nat) : Int) - 1) = false :=
    beq_eq_false_iff_ne.mpr (by push_cast; omega)
  rw [hb1, hb2]
  simp only [Bool.or_self, Bool.false_eq_true, if_false]
  have hb3 : ((nm.length : Int) == -1) = false := beq_eq_false_iff_ne.mpr (by omega)
  rw [hb3]
  simp only [Bool.false_eq_true, if_false]
  have htake : (⟨nm ++ '=' :: sd⟩ : String).data.take (nm.length : Int).toNat = nm := by
    show (nm ++ '=' :: sd).take (nm.length : Int).toNat = nm
    rw [Int.toNat_natCast]
    exact List.take_left nm ('=' :: sd)
  have hdrop : (⟨nm ++ '=' :: sd⟩ : String).data.drop ((nm.length : Int).toNat + 1) = sd := by
    show (nm ++ '=' :: sd).drop ((nm.length : Int).toNat + 1) = sd
    rw [Int.toNat_natCast]
    rw [show nm ++ '=' :: sd = (nm ++ ['=']) ++ sd by simp]
    rw [show nm.length + 1 = (nm ++ ['=']).length by simp]
    exact List.drop_left (nm ++ ['=']) sd
  rw [htake, hdrop]
  have hign : checkIsIgnored c ⟨nm⟩ = false := by
    unfold checkIsIgnored
    rw [hig]
    rfl
  rw [hign]
  simp only [Bool.false_eq_true, if_false, hct]
  rfl

end Zen

namespace Zen

/-- Strings with equal character lists are equal. -/
theorem strDataEq (a b : String) (h : a.data = b.data) : a = b := by
  cases a
  cases b
  cases h
  rfl

/-- `data` of an append. -/
theorem strDataAppendFun (a b : String) : (a ++ b).data = a.data ++ b.data := by
  cases a
  cases b
  rfl

/-- The empty string is a left identity. -/
theorem strEmptyAppend (a : String) : "" ++ a = a := by
  cases a
  rfl

/-- Splitting a comma-free token on commas gives the singleton. -/
theorem splitCommaSingleton (l : List Char) (h : ∀ ch ∈ l, ch ≠ ',') :
    goSplitComma ⟨l⟩ = [⟨l⟩] := by
  unfold goSplitComma
  rw [show (String.mk l).data = l from rfl, splitOnCharNone l h]
  rfl

/-- A comma-headed pattern does not occur in a comma-free list. -/
theorem containsSubCommaFalse (r l : List Char) (h : ∀ ch ∈ l, ch ≠ ',') :
    listContainsSub (',' :: r) l = false := by
  induction l with
  | nil => rfl
  | cons a t ih =>
    have ha : (',' == a) = false :=
      beq_eq_false_iff_ne.mpr (Ne.symm (h a (List.mem_cons_self a t)))
    simp only [listContainsSub, listIsPfxOf, ha, Bool.false_and, Bool.false_or]
    exact ih (fun ch hch => h ch (List.mem_cons_of_mem a hch))

/-- `ConvertType` on a plain string scalar with an empty validate tag. -/
theorem convertTypeStringNoValidate (fuel : Nat) (env : Env) (c : Converter)
    (indent : Nat) (hcty : c.customTypes = []) :
    ConvertType (fuel + 1) env c (.scalar .str) "" indent = (.ok "z.string()", c) := by
  simp only [ConvertType, handleCustomType, hcty]
  rfl

end Zen

namespace Zen

/-- `validateString` on a single `gt=N` token: a minimum of `N + 1`. -/
theorem validateStringGtEq (c : Converter) (hig : c.ignoreTags = []) (hct : c.customTags = [])
    (sd : List Char) (n : Int) (hA : goAtoi ⟨sd⟩ = some n) (hsd : sd ≠ []) :
    validateString c ⟨'g' :: 't' :: '=' :: sd⟩ = .ok (".min(" ++ goItoa (n + 1) ++ ")", false) := by
  have hclean := atoiCleanChars sd n hA
  have hsplit : goSplitComma ⟨'g' :: 't' :: '=' :: sd⟩ = [⟨'g' :: 't' :: '=' :: sd⟩] := by
    apply splitCommaSingleton
    intro ch hch
    simp only [List.mem_cons] at hch
    rcases hch with rfl | rfl | rfl | hm
    · decide
    · decide
    · decide
    · exact (hclean ch hm).1
  unfold validateString
  rw [hsplit]
  rw [show (⟨'g' :: 't' :: '=' :: sd⟩ : String) = ⟨['g', 't'] ++ '=' :: sd⟩ from rfl]
  simp only [validateStringLoop,
    preprocessDirective c hig hct ['g', 't'] sd [] "" (by decide) (by decide)
      (by decide) (fun ch hm => (hclean ch hm).2) hsd]
  rw [strBNeTrue (strMkNe sd [] hsd)]
  simp only [if_true]
  rw [hA]
  simp only [validateStringLoop, goConcat]
  simp [strEmptyAppend, strAppendEmpty]

/-- `validateString` on a single `lt=N` token: a maximum of `N - 1`. -/
theorem validateStringLtEq (c : Converter) (hig : c.ignoreTags = []) (hct : c.customTags = [])
    (sd : List Char) (n : Int) (hA : goAtoi ⟨sd⟩ = some n) (hsd : sd ≠ []) :
    validateString c ⟨'l' :: 't' :: '=' :: sd⟩ = .ok (".max(" ++ goItoa (n - 1) ++ ")", false) := by
  have hclean := atoiCleanChars sd n hA
  have hsplit : goSplitComma ⟨'l' :: 't' :: '=' :: sd⟩ = [⟨'l' :: 't' :: '=' :: sd⟩] := by
    apply splitCommaSingleton
    intro ch hch
    simp only [List.mem_cons] at hch
    rcases hch with rfl | rfl | rfl | hm
    · decide
    · decide
    · decide
    · exact (hclean ch hm).1
  unfold validateString
  rw [hsplit]
  rw [show (⟨'l' :: 't' :: '=' :: sd⟩ : String) = ⟨['l', 't'] ++ '=' :: sd⟩ from rfl]
  simp only [validateStringLoop,
    preprocessDirective c hig hct ['l', 't'] sd [] "" (by decide) (by decide)
      (by decide) (fun ch hm => (hclean ch hm).2) hsd]
  rw [strBNeTrue (strMkNe sd [] hsd)]
  simp only [if_true]
  rw [hA]
  simp only [validateStringLoop, goConcat]
  simp [strEmptyAppend, strAppendEmpty]

/-- `validateString` on a single `gte=N` token: a direct minimum of `N`. -/
theorem validateStringGteEq (c : Converter) (hig : c.ignoreTags = []) (hct : c.customTags = [])
    (sd : List Char) (n : Int) (hA : goAtoi ⟨sd⟩ = some n) (hsd : sd ≠ []) :
    validateString c ⟨'g' :: 't' :: 'e' :: '=' :: sd⟩
      = .ok (".min(" ++ (⟨sd⟩ : String) ++ ")", false) := by
  have hclean := atoiCleanChars sd n hA
  have hsplit : goSplitComma ⟨'g' :: 't' :: 'e' :: '=' :: sd⟩
      = [⟨'g' :: 't' :: 'e' :: '=' :: sd⟩] := by
    apply splitCommaSingleton
    intro ch hch
    simp only [List.mem_cons] at hch
    rcases hch with rfl | rfl | rfl | rfl | hm
    · decide
    · decide
    · decide
    · decide
    · exact (hclean ch hm).1
  unfold validateString
  rw [hsplit]
  rw [show (⟨'g' :: 't' :: 'e' :: '=' :: sd⟩ : String) = ⟨['g', 't', 'e'] ++ '=' :: sd⟩ from rfl]
  simp only [validateStringLoop,
    preprocessDirective c hig hct ['g', 't', 'e'] sd [] "" (by decide) (by decide)
      (by decide) (fun ch hm => (hclean ch hm).2) hsd]
  rw [strBNeTrue (strMkNe sd [] hsd)]
  simp only [if_true]
  simp only [validateStringLoop, goConcat]
  simp [strEmptyAppend, strAppendEmpty]

/-- `validateString` on a single `min=N` token: a direct minimum of `N`. -/
theorem validateStringMinEq (c : Converter) (hig : c.ignoreTags = []) (hct : c.customTags = [])
    (sd : List Char) (n : Int) (hA : goAtoi ⟨sd⟩ = some n) (hsd : sd ≠ []) :
    validateString c ⟨'m' :: 'i' :: 'n' :: '=' :: sd⟩
      = .ok (".min(" ++ (⟨sd⟩ : String) ++ ")", false) := by
  have hclean := atoiCleanChars sd n hA
  have hsplit : goSplitComma ⟨'m' :: 'i' :: 'n' :: '=' :: sd⟩
      = [⟨'m' :: 'i' :: 'n' :: '=' :: sd⟩] := by
    apply splitCommaSingleton
    intro ch hch
    simp only [List.mem_cons] at hch
    rcases hch with rfl | rfl | rfl | rfl | hm
    · decide
    · decide
    · decide
    · decide
    · exact (hclean ch hm).1
  unfold validateString
  rw [hsplit]
  rw [show (⟨'m' :: 'i' :: 'n' :: '=' :: sd⟩ : String) = ⟨['m', 'i', 'n'] ++ '=' :: sd⟩ from rfl]
  simp only [validateStringLoop,
    preprocessDirective c hig hct ['m', 'i', 'n'] sd [] "" (by decide) (by decide)
      (by decide) (fun ch hm => (hclean ch hm).2) hsd]
  rw [strBNeTrue (strMkNe sd [] hsd)]
  simp only [if_true]
  simp only [validateStringLoop, goConcat]
  simp [strEmptyAppend, strAppendEmpty]

/-- `validateString` on a single `lte=N` token: a direct maximum of `N`. -/
theorem validateStringLteEq (c : Converter) (hig : c.ignoreTags = []) (hct : c.customTags = [])
    (sd : List Char) (n : Int) (hA : goAtoi ⟨sd⟩ = some n) (hsd : sd ≠ []) :
    validateString c ⟨'l' :: 't' :: 'e' :: '=' :: sd⟩
      = .ok (".max(" ++ (⟨sd⟩ : String) ++ ")", false) := by
  have hclean := atoiCleanChars sd n hA
  have hsplit : goSplitComma ⟨'l' :: 't' :: 'e' :: '=' :: sd⟩
      = [⟨'l' :: 't' :: 'e' :: '=' :: sd⟩] := by
    apply splitCommaSingleton
    intro ch hch
    simp only [List.mem_cons] at hch
    rcases hch with rfl | rfl | rfl | rfl | hm
    · decide
    · decide
    · decide
    · decide
    · exact (hclean ch hm).1
  unfold validateString
  rw [hsplit]
  rw [show (⟨'l' :: 't' :: 'e' :: '=' :: sd⟩ : String) = ⟨['l', 't', 'e'] ++ '=' :: sd⟩ from rfl]
  simp only [validateStringLoop,
    preprocessDirective c hig hct ['l', 't', 'e'] sd [] "" (by decide) (by decide)
      (by decide) (fun ch hm => (hclean ch hm).2) hsd]
  rw [strBNeTrue (strMkNe sd [] hsd)]
  simp only [if_true]
  simp only [validateStringLoop, goConcat]
  simp [strEmptyAppend, strAppendEmpty]

/-- `validateString` on a single `max=N` token: a direct maximum of `N`. -/
theorem validateStringMaxEq (c : Converter) (hig : c.ignoreTags = []) (hct : c.customTags = [])
    (sd : List Char) (n : Int) (hA : goAtoi ⟨sd⟩ = some n) (hsd : sd ≠ []) :
    validateString c ⟨'m' :: 'a' :: 'x' :: '=' :: sd⟩
      = .ok (".max(" ++ (⟨sd⟩ : String) ++ ")", false) := by
  have hclean := atoiCleanChars sd n hA
  have hsplit : goSplitComma ⟨'m' :: 'a' :: 'x' :: '=' :: sd⟩
      = [⟨'m' :: 'a' :: 'x' :: '=' :: sd⟩] := by
    apply splitCommaSingleton
    intro ch hch
    simp only [List.mem_cons] at hch
    rcases hch with rfl | rfl | rfl | rfl | hm
    · decide
    · decide
    · decide
    · decide
    · exact (hclean ch hm).1
  unfold validateString
  rw [hsplit]
  rw [show (⟨'m' :: 'a' :: 'x' :: '=' :: sd⟩ : String) = ⟨['m', 'a', 'x'] ++ '=' :: sd⟩ from rfl]
  simp only [validateStringLoop,
    preprocessDirective c hig hct ['m', 'a', 'x'] sd [] "" (by decide) (by decide)
      (by decide) (fun ch hm => (hclean ch hm).2) hsd]
  rw [strBNeTrue (strMkNe sd [] hsd)]
  simp only [if_true]
  simp only [validateStringLoop, goConcat]
  simp [strEmptyAppend, strAppendEmpty]

end Zen

namespace Zen

/-- `convertSliceAndArray` on a string slice with a single `gt=N` tag
(`N ≥ 0`): the element schema, `.array()`, and a minimum of `N + 1`. -/
theorem convertSliceGtEq (fuel : Nat) (env : Env) (c : Converter) (indent : Nat)
    (hig : c.ignoreTags = []) (hct : c.customTags = []) (hcty : c.customTypes = [])
    (sd : List Char) (n : Int) (hA : goAtoi ⟨sd⟩ = some n) (hsd : sd ≠ []) (hnn : 0 ≤ n) :
    convertSliceAndArray (fuel + 2) env c (.sliceT (.scalar .str)) ⟨'g' :: 't' :: '=' :: sd⟩ indent
      = (.ok ("z.string()" ++ ".array()" ++ (".min(" ++ goItoa (n + 1) ++ ")")), c) := by
  have hclean := atoiCleanChars sd n hA
  have hnc : ∀ ch ∈ ('g' :: 't' :: '=' :: sd), ch ≠ ',' := by
    intro ch hch
    simp only [List.mem_cons] at hch
    rcases hch with rfl | rfl | rfl | hm
    · decide
    · decide
    · decide
    · exact (hclean ch hm).1
  have hnsp : ∀ ch ∈ ('g' :: 't' :: '=' :: sd), isSpaceChar ch = false := by
    intro ch hch
    simp only [List.mem_cons] at hch
    rcases hch with rfl | rfl | rfl | hm
    · decide
    · decide
    · decide
    · exact (hclean ch hm).2
  have hcur : getValidateCurrent ⟨'g' :: 't' :: '=' :: sd⟩ = ⟨'g' :: 't' :: '=' :: sd⟩ := by
    unfold getValidateCurrent
    rw [show (goContains ⟨'g' :: 't' :: '=' :: sd⟩ ",dive") = false from
        containsSubCommaFalse _ _ hnc]
    rfl
  have hsplit : goSplitComma ⟨'g' :: 't' :: '=' :: sd⟩ = [⟨['g', 't'] ++ '=' :: sd⟩] :=
    splitCommaSingleton _ hnc
  have htrim : goTrimSpace ⟨'g' :: 't' :: '=' :: sd⟩ = ⟨'g' :: 't' :: '=' :: sd⟩ :=
    trimSpaceNone _ hnsp
  have hafter : getValidateAfterDive ⟨'g' :: 't' :: '=' :: sd⟩ = "" := by
    unfold getValidateAfterDive
    rw [strBNeTrue (strMkNe ('g' :: 't' :: '=' :: sd) [] (by simp))]
    simp only [if_true, hsplit, getValidateAfterDive.afterDive]
    rw [show goTrimSpace ⟨['g', 't'] ++ '=' :: sd⟩ = ⟨['g', 't'] ++ '=' :: sd⟩ from
        trimSpaceNone ('g' :: 't' :: '=' :: sd) hnsp]
    rw [show ((⟨['g', 't'] ++ '=' :: sd⟩ : String) == "dive") = false from
        strBEqFalse (strMkNe _ _ (by simp))]
    simp [getValidateAfterDive.afterDive]
  simp only [convertSliceAndArray, hcur, hsplit, sliceLoop,
    preprocessDirective c hig hct ['g', 't'] sd [] "" (by decide) (by decide)
      (by decide) (fun ch hm => (hclean ch hm).2) hsd]
  rw [strBNeTrue (strMkNe sd [] hsd)]
  simp only [if_true]
  rw [hA]
  simp only [if_neg (by omega : ¬ n < 0)]
  rw [hafter]
  simp [sliceLoop, goConcat, strEmptyAppend, strAppendEmpty, Ty.kind, Ty.elemTy,
    convertTypeStringNoValidate fuel env c indent hcty]

end Zen

namespace Zen

/-- `convertSliceAndArray` on a string slice with a single `lt=N` tag (`N ≥ 1`): a maximum of `N - 1`. -/
theorem convertSliceLtEq (fuel : Nat) (env : Env) (c : Converter) (indent : Nat)
    (hig : c.ignoreTags = []) (hct : c.customTags = []) (hcty : c.customTypes = [])
    (sd : List Char) (n : Int) (hA : goAtoi ⟨sd⟩ = some n) (hsd : sd ≠ []) (hpos : 1 ≤ n) :
    convertSliceAndArray (fuel + 2) env c (.sliceT (.scalar .str)) ⟨'l' :: 't' :: '=' :: sd⟩ indent
      = (.ok ("z.string()" ++ ".array()" ++ (".max(" ++ goItoa (n - 1) ++ ")")), c) := by
  have hclean := atoiCleanChars sd n hA
  have hnc : ∀ ch ∈ ('l' :: 't' :: '=' :: sd), ch ≠ ',' := by
    intro ch hch
    simp only [List.mem_cons] at hch
    rcases hch with rfl | rfl | rfl | hm
    · decide
    · decide
    · decide
    · exact (hclean ch hm).1
  have hnsp : ∀ ch ∈ ('l' :: 't' :: '=' :: sd), isSpaceChar ch = false := by
    intro ch hch
    simp only [List.mem_cons] at hch
    rcases hch with rfl | rfl | rfl | hm
    · decide
    · decide
    · decide
    · exact (hclean ch hm).2
  have hcur : getValidateCurrent ⟨'l' :: 't' :: '=' :: sd⟩ = ⟨'l' :: 't' :: '=' :: sd⟩ := by
    unfold getValidateCurrent
    rw [show (goContains ⟨'l' :: 't' :: '=' :: sd⟩ ",dive") = false from
        containsSubCommaFalse _ _ hnc]
    rfl
  have hsplit : goSplitComma ⟨'l' :: 't' :: '=' :: sd⟩ = [⟨['l', 't'] ++ '=' :: sd⟩] :=
    splitCommaSingleton _ hnc
  have hafter : getValidateAfterDive ⟨'l' :: 't' :: '=' :: sd⟩ = "" := by
    unfold getValidateAfterDive
    rw [strBNeTrue (strMkNe ('l' :: 't' :: '=' :: sd) [] (by simp))]
    simp only [if_true, hsplit, getValidateAfterDive.afterDive]
    rw [show goTrimSpace ⟨['l', 't'] ++ '=' :: sd⟩ = ⟨['l', 't'] ++ '=' :: sd⟩ from
        trimSpaceNone ('l' :: 't' :: '=' :: sd) hnsp]
    rw [show ((⟨['l', 't'] ++ '=' :: sd⟩ : String) == "dive") = false from
        strBEqFalse (strMkNe _ _ (by simp))]
    simp [getValidateAfterDive.afterDive]
  simp only [convertSliceAndArray, hcur, hsplit, sliceLoop,
    preprocessDirective c hig hct ['l', 't'] sd [] "" (by decide) (by decide)
      (by decide) (fun ch hm => (hclean ch hm).2) hsd]
  rw [strBNeTrue (strMkNe sd [] hsd)]
  simp only [if_true]
  rw [hA]
  simp only [if_neg (by omega : ¬ n ≤ 0)]
  rw [hafter]
  simp [sliceLoop, goConcat, strEmptyAppend, strAppendEmpty, Ty.kind, Ty.elemTy,
    convertTypeStringNoValidate fuel env c indent hcty]

/-- `convertSliceAndArray` on a string slice with a single `gte=N` tag: a direct minimum of `N`. -/
theorem convertSliceGteEq (fuel : Nat) (env : Env) (c : Converter) (indent : Nat)
    (hig : c.ignoreTags = []) (hct : c.customTags = []) (hcty : c.customTypes = [])
    (sd : List Char) (n : Int) (hA : goAtoi ⟨sd⟩ = some n) (hsd : sd ≠ []) :
    convertSliceAndArray (fuel + 2) env c (.sliceT (.scalar .str)) ⟨'g' :: 't' :: 'e' :: '=' :: sd⟩ indent
      = (.ok ("z.string()" ++ ".array()" ++ (".min(" ++ (⟨sd⟩ : String) ++ ")")), c) := by
  have hclean := atoiCleanChars sd n hA
  have hnc : ∀ ch ∈ ('g' :: 't' :: 'e' :: '=' :: sd), ch ≠ ',' := by
    intro ch hch
    simp only [List.mem_cons] at hch
    rcases hch with rfl | rfl | rfl | rfl | hm
    · decide
    · decide
    · decide
    · decide
    · exact (hclean ch hm).1
  have hnsp : ∀ ch ∈ ('g' :: 't' :: 'e' :: '=' :: sd), isSpaceChar ch = false := by
    intro ch hch
    simp only [List.mem_cons] at hch
    rcases hch with rfl | rfl | rfl | rfl | hm
    · decide
    · decide
    · decide
    · decide
    · exact (hclean ch hm).2
  have hcur : getValidateCurrent ⟨'g' :: 't' :: 'e' :: '=' :: sd⟩ = ⟨'g' :: 't' :: 'e' :: '=' :: sd⟩ := by
    unfold getValidateCurrent
    rw [show (goContains ⟨'g' :: 't' :: 'e' :: '=' :: sd⟩ ",dive") = false from
        containsSubCommaFalse _ _ hnc]
    rfl
  have hsplit : goSplitComma ⟨'g' :: 't' :: 'e' :: '=' :: sd⟩ = [⟨['g', 't', 'e'] ++ '=' :: sd⟩] :=
    splitCommaSingleton _ hnc
  have hafter : getValidateAfterDive ⟨'g' :: 't' :: 'e' :: '=' :: sd⟩ = "" := by
    unfold getValidateAfterDive
    rw [strBNeTrue (strMkNe ('g' :: 't' :: 'e' :: '=' :: sd) [] (by simp))]
    simp only [if_true, hsplit, getValidateAfterDive.afterDive]
    rw [show goTrimSpace ⟨['g', 't', 'e'] ++ '=' :: sd⟩ = ⟨['g', 't', 'e'] ++ '=' :: sd⟩ from
        trimSpaceNone ('g' :: 't' :: 'e' :: '=' :: sd) hnsp]
    rw [show ((⟨['g', 't', 'e'] ++ '=' :: sd⟩ : String) == "dive") = false from
        strBEqFalse (strMkNe _ _ (by simp))]
    simp [getValidateAfterDive.afterDive]
  simp only [convertSliceAndArray, hcur, hsplit, sliceLoop,
    preprocessDirective c hig hct ['g', 't', 'e'] sd [] "" (by decide) (by decide)
      (by decide) (fun ch hm => (hclean ch hm).2) hsd]
  rw [strBNeTrue (strMkNe sd [] hsd)]
  simp only [if_true]
  rw [hafter]
  simp [sliceLoop, goConcat, strEmptyAppend, strAppendEmpty, Ty.kind, Ty.elemTy,
    convertTypeStringNoValidate fuel env c indent hcty]

/-- `convertSliceAndArray` on a string slice with a single `min=N` tag: a direct minimum of `N`. -/
theorem convertSliceMinEq (fuel : Nat) (env : Env) (c : Converter) (indent : Nat)
    (hig : c.ignoreTags = []) (hct : c.customTags = []) (hcty : c.customTypes = [])
    (sd : List Char) (n : Int) (hA : goAtoi ⟨sd⟩ = some n) (hsd : sd ≠ []) :
    convertSliceAndArray (fuel + 2) env c (.sliceT (.scalar .str)) ⟨'m' :: 'i' :: 'n' :: '=' :: sd⟩ indent
      = (.ok ("z.string()" ++ ".array()" ++ (".min(" ++ (⟨sd⟩ : String) ++ ")")), c) := by
  have hclean := atoiCleanChars sd n hA
  have hnc : ∀ ch ∈ ('m' :: 'i' :: 'n' :: '=' :: sd), ch ≠ ',' := by
    intro ch hch
    simp only [List.mem_cons] at hch
    rcases hch with rfl | rfl | rfl | rfl | hm
    · decide
    · decide
    · decide
    · decide
    · exact (hclean ch hm).1
  have hnsp : ∀ ch ∈ ('m' :: 'i' :: 'n' :: '=' :: sd), isSpaceChar ch = false := by
    intro ch hch
    simp only [List.mem_cons] at hch
    rcases hch with rfl | rfl | rfl | rfl | hm
    · decide
    · decide
    · decide
    · decide
    · exact (hclean ch hm).2
  have hcur : getValidateCurrent ⟨'m' :: 'i' :: 'n' :: '=' :: sd⟩ = ⟨'m' :: 'i' :: 'n' :: '=' :: sd⟩ := by
    unfold getValidateCurrent
    rw [show (goContains ⟨'m' :: 'i' :: 'n' :: '=' :: sd⟩ ",dive") = false from
        containsSubCommaFalse _ _ hnc]
    rfl
  have hsplit : goSplitComma ⟨'m' :: 'i' :: 'n' :: '=' :: sd⟩ = [⟨['m', 'i', 'n'] ++ '=' :: sd⟩] :=
    splitCommaSingleton _ hnc
  have hafter : getValidateAfterDive ⟨'m' :: 'i' :: 'n' :: '=' :: sd⟩ = "" := by
    unfold getValidateAfterDive
    rw [strBNeTrue (strMkNe ('m' :: 'i' :: 'n' :: '=' :: sd) [] (by simp))]
    simp only [if_true, hsplit, getValidateAfterDive.afterDive]
    rw [show goTrimSpace ⟨['m', 'i', 'n'] ++ '=' :: sd⟩ = ⟨['m', 'i', 'n'] ++ '=' :: sd⟩ from
        trimSpaceNone ('m' :: 'i' :: 'n' :: '=' :: sd) hnsp]
    rw [show ((⟨['m', 'i', 'n'] ++ '=' :: sd⟩ : String) == "dive") = false from
        strBEqFalse (strMkNe _ _ (by simp))]
    simp [getValidateAfterDive.afterDive]
  simp only [convertSliceAndArray, hcur, hsplit, sliceLoop,
    preprocessDirective c hig hct ['m', 'i', 'n'] sd [] "" (by decide) (by decide)
      (by decide) (fun ch hm => (hclean ch hm).2) hsd]
  rw [strBNeTrue (strMkNe sd [] hsd)]
  simp only [if_true]
  rw [hafter]
  simp [sliceLoop, goConcat, strEmptyAppend, strAppendEmpty, Ty.kind, Ty.elemTy,
    convertTypeStringNoValidate fuel env c indent hcty]

/-- `convertSliceAndArray` on a string slice with a single `lte=N` tag: a direct maximum of `N`. -/
theorem convertSliceLteEq (fuel : Nat) (env : Env) (c : Converter) (indent : Nat)
    (hig : c.ignoreTags = []) (hct : c.customTags = []) (hcty : c.customTypes = [])
    (sd : List Char) (n : Int) (hA : goAtoi ⟨sd⟩ = some n) (hsd : sd ≠ []) :
    convertSliceAndArray (fuel + 2) env c (.sliceT (.scalar .str)) ⟨'l' :: 't' :: 'e' :: '=' :: sd⟩ indent
      = (.ok ("z.string()" ++ ".array()" ++ (".max(" ++ (⟨sd⟩ : String) ++ ")")), c) := by
  have hclean := atoiCleanChars sd n hA
  have hnc : ∀ ch ∈ ('l' :: 't' :: 'e' :: '=' :: sd), ch ≠ ',' := by
    intro ch hch
    simp only [List.mem_cons] at hch
    rcases hch with rfl | rfl | rfl | rfl | hm
    · decide
    · decide
    · decide
    · decide
    · exact (hclean ch hm).1
  have hnsp : ∀ ch ∈ ('l' :: 't' :: 'e' :: '=' :: sd), isSpaceChar ch = false := by
    intro ch hch
    simp only [List.mem_cons] at hch
    rcases hch with rfl | rfl | rfl | rfl | hm
    · decide
    · decide
    · decide
    · decide
    · exact (hclean ch hm).2
  have hcur : getValidateCurrent ⟨'l' :: 't' :: 'e' :: '=' :: sd⟩ = ⟨'l' :: 't' :: 'e' :: '=' :: sd⟩ := by
    unfold getValidateCurrent
    rw [show (goContains ⟨'l' :: 't' :: 'e' :: '=' :: sd⟩ ",dive") = false from
        containsSubCommaFalse _ _ hnc]
    rfl
  have hsplit : goSplitComma ⟨'l' :: 't' :: 'e' :: '=' :: sd⟩ = [⟨['l', 't', 'e'] ++ '=' :: sd⟩] :=
    splitCommaSingleton _ hnc
  have hafter : getValidateAfterDive ⟨'l' :: 't' :: 'e' :: '=' :: sd⟩ = "" := by
    unfold getValidateAfterDive
    rw [strBNeTrue (strMkNe ('l' :: 't' :: 'e' :: '=' :: sd) [] (by simp))]
    simp only [if_true, hsplit, getValidateAfterDive.afterDive]
    rw [show goTrimSpace ⟨['l', 't', 'e'] ++ '=' :: sd⟩ = ⟨['l', 't', 'e'] ++ '=' :: sd⟩ from
        trimSpaceNone ('l' :: 't' :: 'e' :: '=' :: sd) hnsp]
    rw [show ((⟨['l', 't', 'e'] ++ '=' :: sd⟩ : String) == "dive") = false from
        strBEqFalse (strMkNe _ _ (by simp))]
    simp [getValidateAfterDive.afterDive]
  simp only [convertSliceAndArray, hcur, hsplit, sliceLoop,
    preprocessDirective c hig hct ['l', 't', 'e'] sd [] "" (by decide) (by decide)
      (by decide) (fun ch hm => (hclean ch hm).2) hsd]
  rw [strBNeTrue (strMkNe sd [] hsd)]
  simp only [if_true]
  rw [hafter]
  simp [sliceLoop, goConcat, strEmptyAppend, strAppendEmpty, Ty.kind, Ty.elemTy,
    convertTypeStringNoValidate fuel env c indent hcty]

/-- `convertSliceAndArray` on a string slice with a single `max=N` tag: a direct maximum of `N`. -/
theorem convertSliceMaxEq (fuel : Nat) (env : Env) (c : Converter) (indent : Nat)
    (hig : c.ignoreTags = []) (hct : c.customTags = []) (hcty : c.customTypes = [])
    (sd : List Char) (n : Int) (hA : goAtoi ⟨sd⟩ = some n) (hsd : sd ≠ []) :
    convertSliceAndArray (fuel + 2) env c (.sliceT (.scalar .str)) ⟨'m' :: 'a' :: 'x' :: '=' :: sd⟩ indent
      = (.ok ("z.string()" ++ ".array()" ++ (".max(" ++ (⟨sd⟩ : String) ++ ")")), c) := by
  have hclean := atoiCleanChars sd n hA
  have hnc : ∀ ch ∈ ('m' :: 'a' :: 'x' :: '=' :: sd), ch ≠ ',' := by
    intro ch hch
    simp only [List.mem_cons] at hch
    rcases hch with rfl | rfl | rfl | rfl | hm
    · decide
    · decide
    · decide
    · decide
    · exact (hclean ch hm).1
  have hnsp : ∀ ch ∈ ('m' :: 'a' :: 'x' :: '=' :: sd), isSpaceChar ch = false := by
    intro ch hch
    simp only [List.mem_cons] at hch
    rcases hch with rfl | rfl | rfl | rfl | hm
    · decide
    · decide
    · decide
    · decide
    · exact (hclean ch hm).2
  have hcur : getValidateCurrent ⟨'m' :: 'a' :: 'x' :: '=' :: sd⟩ = ⟨'m' :: 'a' :: 'x' :: '=' :: sd⟩ := by
    unfold getValidateCurrent
    rw [show (goContains ⟨'m' :: 'a' :: 'x' :: '=' :: sd⟩ ",dive") = false from
        containsSubCommaFalse _ _ hnc]
    rfl
  have hsplit : goSplitComma ⟨'m' :: 'a' :: 'x' :: '=' :: sd⟩ = [⟨['m', 'a', 'x'] ++ '=' :: sd⟩] :=
    splitCommaSingleton _ hnc
  have hafter : getValidateAfterDive ⟨'m' :: 'a' :: 'x' :: '=' :: sd⟩ = "" := by
    unfold getValidateAfterDive
    rw [strBNeTrue (strMkNe ('m' :: 'a' :: 'x' :: '=' :: sd) [] (by simp))]
    simp only [if_true, hsplit, getValidateAfterDive.afterDive]
    rw [show goTrimSpace ⟨['m', 'a', 'x'] ++ '=' :: sd⟩ = ⟨['m', 'a', 'x'] ++ '=' :: sd⟩ from
        trimSpaceNone ('m' :: 'a' :: 'x' :: '=' :: sd) hnsp]
    rw [show ((⟨['m', 'a', 'x'] ++ '=' :: sd⟩ : String) == "dive") = false from
        strBEqFalse (strMkNe _ _ (by simp))]
    simp [getValidateAfterDive.afterDive]
  simp only [convertSliceAndArray, hcur, hsplit, sliceLoop,
    preprocessDirective c hig hct ['m', 'a', 'x'] sd [] "" (by decide) (by decide)
      (by decide) (fun ch hm => (hclean ch hm).2) hsd]
  rw [strBNeTrue (strMkNe sd [] hsd)]
  simp only [if_true]
  rw [hafter]
  simp [sliceLoop, goConcat, strEmptyAppend, strAppendEmpty, Ty.kind, Ty.elemTy,
    convertTypeStringNoValidate fuel env c indent hcty]

end Zen

namespace Zen

/-! ## C6 -/

/-- Claim C6, counterexample: an array host rejects every comparison
directive — `gt=5` on a `[3]string` field panics instead of compiling to a
minimum bound of 6 — and on a slice host `lt=0` (a non-negative `N`) panics
instead of compiling to a maximum bound of `-1`. -/
theorem comparison_array_aborts :
    (convertSliceAndArray 10 [] newConverter (.arrayT 3 (.scalar .str)) "gt=5" 1).fst
      = .error (.panic "unknown validation: gt=5")
    ∧ (convertSliceAndArray 10 [] newConverter (.sliceT (.scalar .str)) "lt=0" 1).fst
      = .error (.panic "invalid lt value: 0") := by
  decide

/-- Claim C6 (amended): on string hosts `gt=N` compiles to a minimum of
`N + 1`, `lt=N` to a maximum of `N - 1`, `gte`/`min` to a direct minimum and
`lte`/`max` to a direct maximum; slice hosts behave the same with the bounds
chained after `.array()`, except that `gt` requires `N ≥ 0` and `lt` requires
`N ≥ 1` (otherwise the conversion aborts); array hosts abort on every
comparison directive.  In particular `gt=5` on a string field compiles to
`z.string().min(6)` and `min=3,max=7` to the two chained bound suffixes in
that order. -/
theorem comparison_directive_semantics (c : Converter) (fuel indent : Nat) (env : Env)
    (hig : c.ignoreTags = []) (hct : c.customTags = []) (hcty : c.customTypes = [])
    (s : String) (n : Int) (hA : goAtoi s = some n) (hne : s ≠ "") (hnn : 0 ≤ n) :
    validateString c ("gt=" ++ s) = .ok (".min(" ++ goItoa (n + 1) ++ ")", false)
    ∧ validateString c ("lt=" ++ s) = .ok (".max(" ++ goItoa (n - 1) ++ ")", false)
    ∧ validateString c ("gte=" ++ s) = .ok (".min(" ++ s ++ ")", false)
    ∧ validateString c ("min=" ++ s) = .ok (".min(" ++ s ++ ")", false)
    ∧ validateString c ("lte=" ++ s) = .ok (".max(" ++ s ++ ")", false)
    ∧ validateString c ("max=" ++ s) = .ok (".max(" ++ s ++ ")", false)
    ∧ convertSliceAndArray (fuel + 2) env c (.sliceT (.scalar .str)) ("gt=" ++ s) indent
      = (.ok ("z.string()" ++ ".array()" ++ (".min(" ++ goItoa (n + 1) ++ ")")), c)
    ∧ (1 ≤ n →
        convertSliceAndArray (fuel + 2) env c (.sliceT (.scalar .str)) ("lt=" ++ s) indent
          = (.ok ("z.string()" ++ ".array()" ++ (".max(" ++ goItoa (n - 1) ++ ")")), c))
    ∧ convertSliceAndArray (fuel + 2) env c (.sliceT (.scalar .str)) ("gte=" ++ s) indent
      = (.ok ("z.string()" ++ ".array()" ++ (".min(" ++ s ++ ")")), c)
    ∧ convertSliceAndArray (fuel + 2) env c (.sliceT (.scalar .str)) ("min=" ++ s) indent
      = (.ok ("z.string()" ++ ".array()" ++ (".min(" ++ s ++ ")")), c)
    ∧ convertSliceAndArray (fuel + 2) env c (.sliceT (.scalar .str)) ("lte=" ++ s) indent
      = (.ok ("z.string()" ++ ".array()" ++ (".max(" ++ s ++ ")")), c)
    ∧ convertSliceAndArray (fuel + 2) env c (.sliceT (.scalar .str)) ("max=" ++ s) indent
      = (.ok ("z.string()" ++ ".array()" ++ (".max(" ++ s ++ ")")), c)
    ∧ (ConvertType 5 [] newConverter (.scalar .str) "gt=5" 1).fst = .ok "z.string().min(6)"
    ∧ (ConvertType 5 [] newConverter (.scalar .str) "min=3,max=7" 1).fst
      = .ok "z.string().min(3).max(7)"
    ∧ (convertSliceAndArray 10 [] newConverter (.arrayT 3 (.scalar .str)) "min=3" 1).fst
      = .error (.panic "unknown validation: min=3") := by
  obtain ⟨sd⟩ := s
  have hsd : sd ≠ [] := fun h => hne (by rw [h])
  refine ⟨validateStringGtEq c hig hct sd n hA hsd,
    validateStringLtEq c hig hct sd n hA hsd,
    validateStringGteEq c hig hct sd n hA hsd,
    validateStringMinEq c hig hct sd n hA hsd,
    validateStringLteEq c hig hct sd n hA hsd,
    validateStringMaxEq c hig hct sd n hA hsd,
    convertSliceGtEq fuel env c indent hig hct hcty sd n hA hsd hnn,
    fun hpos => convertSliceLtEq fuel env c indent hig hct hcty sd n hA hsd hpos,
    convertSliceGteEq fuel env c indent hig hct hcty sd n hA hsd,
    convertSliceMinEq fuel env c indent hig hct hcty sd n hA hsd,
    convertSliceLteEq fuel env c indent hig hct hcty sd n hA hsd,
    convertSliceMaxEq fuel env c indent hig hct hcty sd n hA hsd,
    by decide, by decide, by decide⟩

/-- Witness for C6 at `N = 5` (string host) and `N = 3`. -/
theorem comparison_directive_semantics_witness :
    validateString newConverter "gt=5" = .ok (".min(6)", false)
    ∧ validateString newConverter "lt=3" = .ok (".max(2)", false)
    ∧ convertSliceAndArray 3 [] newConverter (.sliceT (.scalar .str)) "gt=5" 1
      = (.ok ("z.string()" ++ ".array()" ++ ".min(6)"), newConverter) :=
  ⟨(comparison_directive_semantics newConverter 1 1 [] rfl rfl rfl "5" 5
      (by decide) (by decide) (by decide)).1,
   (comparison_directive_semantics newConverter 1 1 [] rfl rfl rfl "3" 3
      (by decide) (by decide) (by decide)).2.1,
   (comparison_directive_semantics newConverter 1 1 [] rfl rfl rfl "5" 5
      (by decide) (by decide) (by decide)).2.2.2.2.2.2.1⟩

end Zen

namespace Zen

/-! ## C9 -/

/-- A token whose trimmed form has `=` at the first or last position makes
`preprocessValidationTagPart` panic, for every converter configuration (the
boundary check precedes the ignore-list and custom-tag lookups). -/
theorem boundaryPartErrors (c : Converter) (part : String) (refines : List String) (vs : String)
    (hne : goTrimSpace part ≠ "")
    (hb : goIndexEqSign (goTrimSpace part) = 0
        ∨ goIndexEqSign (goTrimSpace part) = ((goTrimSpace part).length : Int) - 1) :
    preprocessValidationTagPart c part refines vs
      = .error (.panic ("invalid validation: " ++ goTrimSpace part)) := by
  simp only [preprocessValidationTagPart]
  rw [strBEqFalse hne]
  simp only [Bool.false_eq_true, if_false]
  have hcond : (goIndexEqSign (goTrimSpace part) == 0
      || goIndexEqSign (goTrimSpace part) == ((goTrimSpace part).length : Int) - 1) = true := by
    rcases hb with hb | hb <;> simp [hb]
  rw [hcond]
  simp

/-- Every error of `preprocessValidationTagPart` is a panic. -/
theorem preprocessErrPanic (c : Converter) (part : String) (refines : List String)
    (vs : String) (e : Err) (h : preprocessValidationTagPart c part refines vs = .error e) :
    ∃ m, e = .panic m := by
  simp only [preprocessValidationTagPart] at h
  repeat' split at h
  all_goals first
    | (injection h with h2; exact ⟨_, h2.symm⟩)
    | simp at h

/-- A malformed (boundary-`=`) token anywhere in the remaining token list
aborts the string-host validation loop with a panic, whatever the
accumulated state. -/
theorem validateStringLoopAborts (c : Converter) (parts : List String) :
    ∀ (base app : String) (refines : List String) (isTop hasBase : Bool),
    (∃ part ∈ parts, goTrimSpace part ≠ ""
        ∧ (goIndexEqSign (goTrimSpace part) = 0
          ∨ goIndexEqSign (goTrimSpace part) = ((goTrimSpace part).length : Int) - 1)) →
    ∃ msg, validateStringLoop c parts base app refines isTop hasBase
      = .error (.panic msg) := by
  induction parts with
  | nil =>
    intro _ _ _ _ _ hex
    obtain ⟨part, hmem, _⟩ := hex
    cases hmem
  | cons head rest ih =>
    intro base app refines isTop hasBase hex
    obtain ⟨part, hmem, hP⟩ := hex
    rcases List.mem_cons.mp hmem with rfl | hmem'
    · simp only [validateStringLoop, boundaryPartErrors c part refines app hP.1 hP.2]
      exact ⟨_, rfl⟩
    · have hbad' : ∃ p ∈ rest, goTrimSpace p ≠ ""
          ∧ (goIndexEqSign (goTrimSpace p) = 0
            ∨ goIndexEqSign (goTrimSpace p) = ((goTrimSpace p).length : Int) - 1) :=
        ⟨part, hmem', hP⟩
      simp only [validateStringLoop]
      cases hpre : preprocessValidationTagPart c head refines app with
      | error e =>
        obtain ⟨m, rfl⟩ := preprocessErrPanic c head refines app e hpre
        exact ⟨m, rfl⟩
      | ok tup =>
        obtain ⟨vn, vv, dn, r1, a1⟩ := tup
        cases dn with
        | true => exact ih _ _ _ _ _ hbad'
        | false =>
          repeat' split
          all_goals first
            | exact ⟨_, rfl⟩
            | exact ih _ _ _ _ _ hbad'
            | simp_all

end Zen

namespace Zen

/-- Claim C9: a directive that is neither built-in nor ignored (`bad=1`)
aborts the conversion with a panic on every host kind (string, number,
slice, map — shown at the representative empty configuration), and a token
with `=` at the string boundary panics universally — for every converter
configuration and every constraint string containing such a token (the first
conjunct).  The `Except` result carries no output on the error path, so an
abort produces no partial result. -/
theorem unknown_or_malformed_aborts :
    (∀ (c : Converter) (validate part : String),
        part ∈ goSplitComma validate →
        goTrimSpace part ≠ "" →
        (goIndexEqSign (goTrimSpace part) = 0
          ∨ goIndexEqSign (goTrimSpace part) = ((goTrimSpace part).length : Int) - 1) →
        ∃ msg, validateString c validate = .error (.panic msg))
    ∧ validateString newConverter "bad=1"
      = .error (.panic "unknown string validation with value: bad=1 (valName: bad, valValue: 1)")
    ∧ validateNumber newConverter "bad=1"
      = .error (.panic "unknown number validation with value: bad=1")
    ∧ (convertSliceAndArray 10 [] newConverter (.sliceT (.scalar .str)) "bad=1" 1).fst
      = .error (.panic "unknown validation: bad=1")
    ∧ (convertMap 10 [] newConverter (.mapT (.scalar .str) (.scalar .str)) "bad=1" 1).fst
      = .error (.panic "unknown validation: bad=1")
    ∧ validateString newConverter "=1" = .error (.panic "invalid validation: =1")
    ∧ validateString newConverter "min=" = .error (.panic "invalid validation: min=")
    ∧ (ConvertType 10 [] newConverter (.scalar .str) "bad=1" 1).fst
      = .error (.panic "unknown string validation with value: bad=1 (valName: bad, valValue: 1)") := by
  refine ⟨?_, by decide, by decide, by decide, by decide, by decide, by decide, by decide⟩
  intro c validate part hmem hne hb
  unfold validateString
  exact validateStringLoopAborts c (goSplitComma validate) "" "" [] false false ⟨part, hmem, hne, hb⟩

/-- Witness for C9: the malformed token `=1` inside `"min=3,=1"`. -/
theorem unknown_or_malformed_aborts_witness :
    ∃ msg, validateString newConverter "min=3,=1" = .error (.panic msg) :=
  unknown_or_malformed_aborts.1 newConverter "min=3,=1" "=1" (by decide) (by decide) (by decide)

end Zen

namespace Zen

/-- Witness for C7 at a concrete string-slice field. -/
theorem nullability_classifier_slice_witness :
    isNullable (Field.mk "S" "" "" false (Ty.sliceT (Ty.scalar .str))) = true
    ∧ isOptional (Field.mk "S" "" "" false (Ty.sliceT (Ty.scalar .str))) = false
    ∧ isNullable (Field.mk "S" ",omitempty" "" false (Ty.sliceT (Ty.scalar .str))) = false
    ∧ isOptional (Field.mk "S" ",omitempty" "" false (Ty.sliceT (Ty.scalar .str))) = true
    ∧ isNullable (Field.mk "S" "" "min=1" false (Ty.sliceT (Ty.scalar .str))) = false
    ∧ isOptional (Field.mk "S" "" "min=1" false (Ty.sliceT (Ty.scalar .str))) = false :=
  nullability_classifier_slice "S" (Ty.scalar .str) false

end Zen

